import Mathlib

/-!
Verification development for the specification-expression encoder of the
Prusti deductive verifier (`src/encoder/spec_encoder.rs`) and the assertion
wire format (`prusti-specs/src/specifications/json.rs`).

The Rust sources are shallowly embedded as Lean definitions: panics
(`assert!`, `unimplemented!`, `unreachable!`, `.unwrap()`) are modelled as
`Except` errors classified by the error taxonomy of the design document
(UnsupportedSyntax, TypeMismatch, UnresolvedBinding, SerializationError).
-/

/-- Alias for Lean's integers, usable inside inductives whose constructor
names shadow `Int`. -/
abbrev IntVal := Int

/-- Alias for Lean's booleans, usable inside inductives whose constructor
names shadow `Bool`. -/
abbrev BoolVal := Bool

namespace vir

/-- Modelled from the spec: the `vir` module is not in `src/`; the backend
IR type of an expression, one of Boolean, Integer, or a typed reference
(`vir::Type`). Named `Typ` because `Type` is reserved in Lean. -/
inductive Typ where
| Int
| Bool
| TypedRef (pred_name : String)
deriving DecidableEq, Repr

/-- Modelled from the spec: `vir::Type::is_ref` — a type is a reference
exactly when it is a `TypedRef`. -/
def Typ.is_ref : Typ → BoolVal
| Typ.TypedRef _ => true
| _ => false

/-- Modelled from the spec: `vir::Field` — a named, typed accessor. -/
structure Field where
  name : String
  typ : Typ
deriving DecidableEq, Repr

/-- Modelled from the spec: `vir::LocalVar` — a named, typed IR variable. -/
structure LocalVar where
  name : String
  typ : Typ
deriving DecidableEq, Repr

/-- Modelled from the spec: `vir::Place` — a base variable plus an ordered
chain of typed accessors. -/
inductive Place where
| Base : LocalVar → Place
| AccessField : Place → Field → Place
deriving DecidableEq, Repr

/-- Modelled from the spec: `Place::access` appends one accessor. -/
def Place.access (p : Place) (f : Field) : Place := Place.AccessField p f

/-- Modelled from the spec: `Place::get_type` — the type of the last
component of the accessor chain (the base variable's type if the chain is
empty). -/
def Place.get_type : Place → Typ
| Place.Base v => v.typ
| Place.AccessField _ f => f.typ

/-- Modelled from the spec: IR constants are arbitrary-precision integers
or booleans (`vir::Const`). -/
inductive Const where
| Int (i : IntVal)
| Bool (b : BoolVal)
deriving DecidableEq, Repr

/-- Modelled from the spec: `Const::is_num` — true exactly on integer
constants. -/
def Const.is_num : Const → BoolVal
| Const.Int _ => true
| Const.Bool _ => false

/-- Unary IR operator kinds (`not`, `minus`). -/
inductive UnOpKind where
| Not : UnOpKind
| Minus : UnOpKind
deriving DecidableEq, Repr

/-- Binary IR operator kinds. -/
inductive BinOpKind where
| Add | Sub | Mul | Div | Rem
| And | Or | Xor
| EqCmp | NeCmp | LtCmp | LeCmp | GtCmp | GeCmp
| Implies
deriving DecidableEq, Repr

/-- Modelled from the spec: `vir::Expr`, the IR expression — a closed
variant over place-derived values, constants, unary and binary operators,
conditionals, old-snapshots, and quantifiers with triggers (a trigger is a
list of IR terms). -/
inductive Expr where
| Place : Place → Expr
| Const : Const → Expr
| UnOp : UnOpKind → Expr → Expr
| BinOp : BinOpKind → Expr → Expr → Expr
| Ite : Expr → Expr → Expr → Expr
| Old : Expr → Expr
| ForAll : List LocalVar → List (List Expr) → Expr → Expr
deriving Repr

/-- Modelled from the spec: smart constructor `vir::Expr::add`. -/
def Expr.add (l r : Expr) : Expr := Expr.BinOp BinOpKind.Add l r
/-- Modelled from the spec: smart constructor `vir::Expr::sub`. -/
def Expr.sub (l r : Expr) : Expr := Expr.BinOp BinOpKind.Sub l r
/-- Modelled from the spec: smart constructor `vir::Expr::mul`. -/
def Expr.mul (l r : Expr) : Expr := Expr.BinOp BinOpKind.Mul l r
/-- Modelled from the spec: smart constructor `vir::Expr::div`. -/
def Expr.div (l r : Expr) : Expr := Expr.BinOp BinOpKind.Div l r
/-- Modelled from the spec: smart constructor `vir::Expr::rem`. -/
def Expr.rem (l r : Expr) : Expr := Expr.BinOp BinOpKind.Rem l r
/-- Modelled from the spec: smart constructor `vir::Expr::and`. -/
def Expr.and (l r : Expr) : Expr := Expr.BinOp BinOpKind.And l r
/-- Modelled from the spec: smart constructor `vir::Expr::or`. -/
def Expr.or (l r : Expr) : Expr := Expr.BinOp BinOpKind.Or l r
/-- Modelled from the spec: smart constructor `vir::Expr::xor`. -/
def Expr.xor (l r : Expr) : Expr := Expr.BinOp BinOpKind.Xor l r
/-- Modelled from the spec: smart constructor `vir::Expr::eq_cmp` (the IR
equality used for binary `==`). -/
def Expr.eq_cmp (l r : Expr) : Expr := Expr.BinOp BinOpKind.EqCmp l r
/-- Modelled from the spec: smart constructor `vir::Expr::ne_cmp`. -/
def Expr.ne_cmp (l r : Expr) : Expr := Expr.BinOp BinOpKind.NeCmp l r
/-- Modelled from the spec: smart constructor `vir::Expr::lt_cmp`. -/
def Expr.lt_cmp (l r : Expr) : Expr := Expr.BinOp BinOpKind.LtCmp l r
/-- Modelled from the spec: smart constructor `vir::Expr::le_cmp`. -/
def Expr.le_cmp (l r : Expr) : Expr := Expr.BinOp BinOpKind.LeCmp l r
/-- Modelled from the spec: smart constructor `vir::Expr::gt_cmp`. -/
def Expr.gt_cmp (l r : Expr) : Expr := Expr.BinOp BinOpKind.GtCmp l r
/-- Modelled from the spec: smart constructor `vir::Expr::ge_cmp`. -/
def Expr.ge_cmp (l r : Expr) : Expr := Expr.BinOp BinOpKind.GeCmp l r
/-- Modelled from the spec: smart constructor `vir::Expr::implies`. -/
def Expr.implies (l r : Expr) : Expr := Expr.BinOp BinOpKind.Implies l r
/-- Modelled from the spec: smart constructor `vir::Expr::not`. -/
def Expr.not (e : Expr) : Expr := Expr.UnOp UnOpKind.Not e
/-- Modelled from the spec: smart constructor `vir::Expr::minus`. -/
def Expr.minus (e : Expr) : Expr := Expr.UnOp UnOpKind.Minus e
/-- Modelled from the spec: smart constructor `vir::Expr::ite`. -/
def Expr.ite (g t e : Expr) : Expr := Expr.Ite g t e
/-- Modelled from the spec: smart constructor `vir::Expr::old`, the
old-snapshot wrapper. -/
def Expr.old (e : Expr) : Expr := Expr.Old e
/-- Modelled from the spec: smart constructor `vir::Expr::forall`
(`forAll` because `forall` is reserved in Lean); a trigger is a list of
IR terms. -/
def Expr.forAll (vars : List LocalVar) (triggers : List (List Expr)) (body : Expr) : Expr :=
  Expr.ForAll vars triggers body

/-- Modelled from the spec: `ExprIterator::conjoin` is not in `src/`; per
design §4.5 the children of a conjunction are combined with an n-ary
logical AND and an empty conjunction is not a valid input and is rejected
rather than silently treated as `true`. -/
def conjoin : List Expr → Except Unit Expr
| [] => Except.error ()
| x :: xs => Except.ok (xs.foldl Expr.and x)

/-- Modelled from the spec: `ExprIterator::disjoin` is not in `src/`; per
design §4.3 the per-arm pattern conditions are combined into their
disjunction (an empty disjunction is the constant `false`). -/
def disjoin : List Expr → Expr
| [] => Expr.Const (Const.Bool false)
| x :: xs => xs.foldl Expr.or x

end vir

namespace hir

/-- The subset of `rustc::ty::TypeVariants` consulted by the encoder
(static types assigned by the external type-checker). -/
inductive Ty where
| TyBool : Ty
| TyInt : Ty
| TyUint : Ty
| TyTuple : Ty
| TyAdt : Ty
| TyChar : Ty
deriving DecidableEq, Repr

/-- `ast::LitIntType` — the suffix class of an integer literal. -/
inductive LitIntType where
| Signed : LitIntType
| Unsigned : LitIntType
| Unsuffixed : LitIntType
deriving DecidableEq, Repr

/-- `ast::LitKind` — the literal kinds the encoder distinguishes; the
integer payload is the `u128` magnitude from the token. -/
inductive LitKind where
| Int : Nat → LitIntType → LitKind
| Bool : Bool → LitKind
| Other : LitKind
deriving DecidableEq, Repr

/-- `hir::BinOp_` — surface binary operator kinds. -/
inductive BinOp_ where
| BiAdd | BiSub | BiMul | BiDiv | BiRem
| BiAnd | BiOr
| BiBitXor | BiBitAnd | BiBitOr
| BiEq | BiLt | BiLe | BiNe | BiGt | BiGe
| BiOther
deriving DecidableEq, Repr

/-- `hir::UnOp` — surface unary operator kinds. -/
inductive UnOp where
| UnDeref : UnOp
| UnNot : UnOp
| UnNeg : UnOp
deriving DecidableEq, Repr

/-- The data `encode_hir_field` obtains from the external type-checker
(`tcx`) about one field-access expression: whether the base type is an ADT
and, if so, whether `describe_def` resolves the base to a variant (giving
its index); the field's identifier name; the positional field index; and
the field's static type. -/
structure FieldData where
  baseAdt : Option (Option Nat)
  fieldName : String
  fieldIndex : Nat
  fieldTy : Ty
deriving DecidableEq, Repr

mutual

/-- `hir::Expr_` — the surface expression shapes handled by
`encode_hir_expr`/`encode_hir_path`. Path-shaped nodes carry the static
type the external type-checker assigns to them (`hir_id_to_type`); other
external annotations are inlined the same way. `ExprOther` stands for
every other surface shape (all of which the encoder rejects). -/
inductive Expr_ where
| ExprLit : LitKind → Expr_
| ExprBinary : BinOp_ → Expr_ → Expr_ → Expr_
| ExprUnary : UnOp → Ty → Expr_ → Expr_
| ExprField : Expr_ → FieldData → Ty → Expr_
| ExprPath : String → Ty → Expr_
| ExprIf : Expr_ → Expr_ → Option Expr_ → Expr_
| ExprMatch : Expr_ → List Arm → Expr_
| ExprBlock : Bool → Option Expr_ → Expr_
| ExprCall : Expr_ → List Expr_ → Expr_
| ExprOther : Expr_

/-- `hir::Arm` — one match arm: its patterns, optional guard, and body. -/
inductive Arm where
| mk : List Pat → Option Expr_ → Expr_ → Arm

/-- `hir::PatKind` — the pattern shapes the encoder distinguishes; for
struct/tuple-struct/tuple patterns only the sub-pattern count is consulted
(`args.is_empty()`), modelled as a `Nat`. -/
inductive Pat where
| Wild : Pat
| Lit : Expr_ → Pat
| Struct : Nat → Pat
| TupleStruct : Nat → Pat
| Tuple : Nat → Pat
| Other : Pat

end

/-- The patterns of an arm. -/
def Arm.pats : Arm → List Pat
| Arm.mk pats _ _ => pats

/-- The optional guard of an arm. -/
def Arm.guard : Arm → Option Expr_
| Arm.mk _ guard _ => guard

/-- The body of an arm. -/
def Arm.body : Arm → Expr_
| Arm.mk _ _ body => body

/-- The static type the type-checker annotation gives a path-shaped node
(`hir_id_to_type` on the node); `TyChar` is a placeholder on shapes the
encoder never queries. -/
def Expr_.node_ty : Expr_ → Ty
| Expr_.ExprUnary _ ty _ => ty
| Expr_.ExprField _ _ ty => ty
| Expr_.ExprPath _ ty => ty
| _ => Ty.TyChar

end hir

/-- The encoder's error taxonomy from design §7; every panic of the source
(`assert!`, `unimplemented!`, `unreachable!`, `.unwrap()`) is fatal and is
classified by these reason codes (`unsupported` stands for the
UnsupportedSyntax code). -/
inductive EncodeError where
| unsupported : EncodeError
| typeMismatch : EncodeError
| unresolvedBinding : EncodeError
| serializationError : EncodeError
deriving DecidableEq, Repr

/-- The procedure-scope symbol table consulted by `encode_hir_variable`
(`mir.local_decls`): entry `i` is MIR local `_i` and holds its
user-visible name when it has one (the return slot `_0` is unnamed). -/
structure Mir where
  local_decls : List (Option String)
deriving Repr

/-- The index of the first MIR local whose declared name matches, as in
`local_decls.iter_enumerated().find(..)`. -/
def Mir.find_local (mir : Mir) (name : String) : Option Nat :=
  (List.range mir.local_decls.length).find? (fun i =>
    match mir.local_decls.get? i with
    | some (some n) => n = name
    | _ => false)

/-- Modelled from the spec: `Encoder::encode_type_predicate_use` is not in
`src/`; it maps a static type to the name of its type predicate, the same
name for repeated uses of the same type. -/
def encode_type_predicate_use : hir.Ty → String
| hir.Ty.TyBool => "bool"
| hir.Ty.TyInt => "int"
| hir.Ty.TyUint => "uint"
| hir.Ty.TyTuple => "tuple"
| hir.Ty.TyAdt => "adt"
| hir.Ty.TyChar => "char"

/-- Modelled from the spec: `Encoder::encode_type` is not in `src/`; it
maps a field's static type to its IR type (primitive value types to the
matching primitive sort, aggregates to typed references). -/
def encode_type (ty : hir.Ty) : vir.Typ :=
  match ty with
  | hir.Ty.TyBool => vir.Typ.Bool
  | hir.Ty.TyInt => vir.Typ.Int
  | hir.Ty.TyUint => vir.Typ.Int
  | _ => vir.Typ.TypedRef (encode_type_predicate_use ty)

namespace SpecEncoder

open hir

/-- `SpecEncoder::encode_hir_field`: builds the typed accessor for one
field access from the type-checker's data — `enum_<variant>_<name>` when
the base is an ADT with a resolved variant, `enum_0_<name>` when the base
is an ADT without one, `tuple_<index>` otherwise. -/
def encode_hir_field (fd : FieldData) : vir.Field :=
  let field_name :=
    match fd.baseAdt with
    | some (some variant_index) =>
        "enum_" ++ toString variant_index ++ "_" ++ fd.fieldName
    | some none => "enum_0_" ++ fd.fieldName
    | none => "tuple_" ++ toString fd.fieldIndex
  vir.Field.mk field_name (encode_type fd.fieldTy)

/-- `SpecEncoder::encode_hir_variable`: base-variable resolution. The name
`result` always becomes the canonical return slot `_0`; any other name is
first looked up among the procedure's named locals (becoming that local's
MIR name `_i`); only a name matching no local is kept as a quantified
variable, which must be integer-typed. -/
def encode_hir_variable (mir : Mir) (original_var_name : String) (var_ty : Ty) :
    Except EncodeError vir.LocalVar :=
  let resolved : String × Bool :=
    if original_var_name = "result" then ("_0", false)
    else
      match mir.find_local original_var_name with
      | some localIdx => ("_" ++ toString localIdx, false)
      | none => (original_var_name, true)
  let var_name := resolved.1
  let is_quantified_var := resolved.2
  if is_quantified_var then
    match var_ty with
    | Ty.TyInt => Except.ok (vir.LocalVar.mk var_name vir.Typ.Int)
    | Ty.TyUint => Except.ok (vir.LocalVar.mk var_name vir.Typ.Int)
    | _ => Except.error EncodeError.typeMismatch
  else
    Except.ok (vir.LocalVar.mk var_name
      (vir.Typ.TypedRef (encode_type_predicate_use var_ty)))

/-- `SpecEncoder::encode_hir_path`: resolves a path-shaped expression to a
`vir::Place` — field accesses and dereferences require the enclosing
sub-place to be reference-typed and append one accessor; a plain variable
is the base case; every non-path shape is a fatal error. -/
def encode_hir_path (mir : Mir) : Expr_ → Except EncodeError vir.Place
| Expr_.ExprField expr fd _ => do
    let place ← encode_hir_path mir expr
    if (vir.Place.get_type place).is_ref then
      Except.ok (place.access (encode_hir_field fd))
    else Except.error EncodeError.typeMismatch
| Expr_.ExprUnary UnOp.UnDeref base_ty expr => do
    let place ← encode_hir_path mir expr
    if (vir.Place.get_type place).is_ref then
      Except.ok (place.access (vir.Field.mk "val_ref"
        (vir.Typ.TypedRef (encode_type_predicate_use base_ty))))
    else Except.error EncodeError.typeMismatch
| Expr_.ExprUnary UnOp.UnNot _ _ => Except.error EncodeError.unsupported
| Expr_.ExprUnary UnOp.UnNeg _ _ => Except.error EncodeError.unsupported
| Expr_.ExprLit _ => Except.error EncodeError.unsupported
| Expr_.ExprBinary _ _ _ => Except.error EncodeError.unsupported
| Expr_.ExprIf _ _ _ => Except.error EncodeError.unsupported
| Expr_.ExprMatch _ _ => Except.error EncodeError.unsupported
| Expr_.ExprPath name ty =>
    (encode_hir_variable mir name ty).map vir.Place.Base
| Expr_.ExprBlock _ _ => Except.error EncodeError.unsupported
| Expr_.ExprCall _ _ => Except.error EncodeError.unsupported
| Expr_.ExprOther => Except.error EncodeError.unsupported

/-- `SpecEncoder::encode_hir_path_expr`: resolves the place and, when it is
reference-typed, appends the primitive value accessor selected by the
expression's static type (`val_bool` / `val_int`; aggregates stay
references); a raw-valued place is used directly. -/
def encode_hir_path_expr (mir : Mir) (base_expr : Expr_) : Except EncodeError vir.Expr := do
  let place ← encode_hir_path mir base_expr
  let base_ty := base_expr.node_ty
  if (vir.Place.get_type place).is_ref then
    match base_ty with
    | Ty.TyBool =>
        Except.ok (vir.Expr.Place (place.access (vir.Field.mk "val_bool" vir.Typ.Bool)))
    | Ty.TyInt =>
        Except.ok (vir.Expr.Place (place.access (vir.Field.mk "val_int" vir.Typ.Int)))
    | Ty.TyUint =>
        Except.ok (vir.Expr.Place (place.access (vir.Field.mk "val_int" vir.Typ.Int)))
    | Ty.TyTuple => Except.ok (vir.Expr.Place place)
    | Ty.TyAdt => Except.ok (vir.Expr.Place place)
    | _ => Except.error EncodeError.unsupported
  else
    Except.ok (vir.Expr.Place place)

/-- `SpecEncoder::encode_literal_expr`: integer literals become
arbitrary-precision integer constants (a signed suffix reads the `u128`
magnitude through the wrapping `as i128` cast of the source), boolean
literals become boolean constants. -/
def encode_literal_expr : LitKind → Except EncodeError vir.Const
| LitKind.Int int_val LitIntType.Signed =>
    let m : Nat := int_val % 2 ^ 128
    Except.ok (vir.Const.Int (if m < 2 ^ 127 then (m : Int) else (m : Int) - 2 ^ 128))
| LitKind.Int int_val LitIntType.Unsigned => Except.ok (vir.Const.Int (int_val : Int))
| LitKind.Int int_val LitIntType.Unsuffixed => Except.ok (vir.Const.Int (int_val : Int))
| LitKind.Bool bool_val => Except.ok (vir.Const.Bool bool_val)
| LitKind.Other => Except.error EncodeError.unsupported

/-- The `is_bool` test of `encode_hir_expr`: the encoded operand is a
place whose type is `Bool` (any other encoded value, including boolean
constants and comparison results, fails the test). -/
def is_bool_expr : vir.Expr → Bool
| vir.Expr.Place p => p.get_type = vir.Typ.Bool
| _ => false

/-- The `is_int` test of `encode_hir_expr` for unary negation: an
integer-typed place or a numeric constant. -/
def is_int_expr : vir.Expr → Bool
| vir.Expr.Place p => p.get_type = vir.Typ.Int
| vir.Expr.Const c => c.is_num
| _ => false

/-- The pre-validation of match arms in `encode_hir_expr`: every arm is
guard-free and every pattern is a wildcard, a literal, or a structurally
empty struct/tuple-struct/tuple pattern. -/
def pat_ok : Pat → Bool
| Pat.Wild => true
| Pat.Lit _ => true
| Pat.Struct nargs => nargs = 0
| Pat.TupleStruct nargs => nargs = 0
| Pat.Tuple nargs => nargs = 0
| Pat.Other => false

/-- All arms pass the match pre-validation (no guard, supported patterns
only). -/
def arms_ok (arms : List Arm) : Bool :=
  arms.all (fun arm => arm.guard.isNone) &&
  arms.all (fun arm => arm.pats.all pat_ok)

mutual

/-- `SpecEncoder::encode_hir_expr`: recursive lowering of a surface
expression to an IR expression. -/
def encode_hir_expr (mir : Mir) : Expr_ → Except EncodeError vir.Expr
| Expr_.ExprLit lit => (encode_literal_expr lit).map vir.Expr.Const
| Expr_.ExprBinary op left right => do
    let left_expr ← encode_hir_expr mir left
    let right_expr ← encode_hir_expr mir right
    let is_bool := is_bool_expr left_expr
    match op with
    | BinOp_.BiAdd => Except.ok (vir.Expr.add left_expr right_expr)
    | BinOp_.BiSub => Except.ok (vir.Expr.sub left_expr right_expr)
    | BinOp_.BiMul => Except.ok (vir.Expr.mul left_expr right_expr)
    | BinOp_.BiDiv => Except.ok (vir.Expr.div left_expr right_expr)
    | BinOp_.BiRem => Except.ok (vir.Expr.rem left_expr right_expr)
    | BinOp_.BiAnd => Except.ok (vir.Expr.and left_expr right_expr)
    | BinOp_.BiOr => Except.ok (vir.Expr.or left_expr right_expr)
    | BinOp_.BiBitXor =>
        if is_bool then Except.ok (vir.Expr.xor left_expr right_expr)
        else Except.error EncodeError.unsupported
    | BinOp_.BiBitAnd =>
        if is_bool then Except.ok (vir.Expr.and left_expr right_expr)
        else Except.error EncodeError.unsupported
    | BinOp_.BiBitOr =>
        if is_bool then Except.ok (vir.Expr.or left_expr right_expr)
        else Except.error EncodeError.unsupported
    | BinOp_.BiEq => Except.ok (vir.Expr.eq_cmp left_expr right_expr)
    | BinOp_.BiLt => Except.ok (vir.Expr.lt_cmp left_expr right_expr)
    | BinOp_.BiLe => Except.ok (vir.Expr.le_cmp left_expr right_expr)
    | BinOp_.BiNe => Except.ok (vir.Expr.ne_cmp left_expr right_expr)
    | BinOp_.BiGt => Except.ok (vir.Expr.gt_cmp left_expr right_expr)
    | BinOp_.BiGe => Except.ok (vir.Expr.ge_cmp left_expr right_expr)
    | BinOp_.BiOther => Except.error EncodeError.unsupported
| Expr_.ExprUnary UnOp.UnDeref ty expr =>
    encode_hir_path_expr mir (Expr_.ExprUnary UnOp.UnDeref ty expr)
| Expr_.ExprField base fd ty =>
    encode_hir_path_expr mir (Expr_.ExprField base fd ty)
| Expr_.ExprPath name ty =>
    encode_hir_path_expr mir (Expr_.ExprPath name ty)
| Expr_.ExprUnary UnOp.UnNot _ expr => do
    let encoded_expr ← encode_hir_expr mir expr
    if is_bool_expr encoded_expr then Except.ok (vir.Expr.not encoded_expr)
    else Except.error EncodeError.typeMismatch
| Expr_.ExprUnary UnOp.UnNeg _ expr => do
    let encoded_expr ← encode_hir_expr mir expr
    if is_int_expr encoded_expr then Except.ok (vir.Expr.minus encoded_expr)
    else Except.error EncodeError.typeMismatch
| Expr_.ExprIf guard_expr then_expr (some else_expr) => do
    let encoded_guard ← encode_hir_expr mir guard_expr
    let encoded_then ← encode_hir_expr mir then_expr
    let encoded_else ← encode_hir_expr mir else_expr
    Except.ok (vir.Expr.ite encoded_guard encoded_then encoded_else)
| Expr_.ExprMatch expr arms =>
    if arms_ok arms then do
      let encoded_expr_value ← encode_hir_expr mir expr
      encode_match_arms mir expr encoded_expr_value arms
    else Except.error EncodeError.unsupported
| Expr_.ExprBlock hasStmts tail =>
    if hasStmts then Except.error EncodeError.unsupported
    else
      match tail with
      | some e => encode_hir_expr mir e
      | none => Except.error EncodeError.unsupported
| Expr_.ExprCall callee arguments =>
    match callee with
    | Expr_.ExprPath fn_name _ =>
        if fn_name = "old" then
          match arguments with
          | [arg] => do
              let encoded_arg ← encode_hir_expr mir arg
              Except.ok (vir.Expr.old encoded_arg)
          | _ => Except.error EncodeError.unsupported
        else Except.error EncodeError.unsupported
    | _ => Except.error EncodeError.unsupported
| Expr_.ExprIf _ _ none => Except.error EncodeError.unsupported
| Expr_.ExprOther => Except.error EncodeError.unsupported
termination_by e => sizeOf e
decreasing_by all_goals (simp_wf <;> omega)

/-- `SpecEncoder::encode_match_arms`: right-fold over the ordered arm list
— the body of the first arm is encoded up front; with exactly one arm left
it is the result; otherwise the result is a conditional on the disjunction
of the first arm's pattern conditions, with the remaining arms desugared
into the else-branch. -/
def encode_match_arms (mir : Mir) (base_expr : Expr_) (matched_expr_value : vir.Expr) :
    List Arm → Except EncodeError vir.Expr
| [] => Except.error EncodeError.unsupported
| Arm.mk pats _g body :: rest => do
    let encoded_body ← encode_hir_expr mir body
    match rest with
    | [] => Except.ok encoded_body
    | arm2 :: rest2 => do
        let encoded_pats ← encode_pats mir matched_expr_value pats
        let encoded_else ← encode_match_arms mir base_expr matched_expr_value (arm2 :: rest2)
        Except.ok (vir.Expr.ite (vir.disjoin encoded_pats) encoded_body encoded_else)
termination_by arms => sizeOf arms
decreasing_by all_goals (simp_wf <;> omega)

/-- The per-pattern loop of `encode_match_arms`: a wildcard contributes the
always-true condition, a literal pattern contributes
`matched_expr_value == literal` via `eq_cmp`, and the structurally empty
aggregate patterns are unsupported (pending discriminant extraction). -/
def encode_pats (mir : Mir) (matched_expr_value : vir.Expr) :
    List Pat → Except EncodeError (List vir.Expr)
| [] => Except.ok []
| pat :: pats => do
    let encoded_pat : vir.Expr ←
      match pat with
      | Pat.Wild => Except.ok (vir.Expr.Const (vir.Const.Bool true))
      | Pat.Lit expr => do
          let target ← encode_hir_expr mir expr
          Except.ok (vir.Expr.eq_cmp matched_expr_value target)
      | Pat.Struct _ => Except.error EncodeError.unsupported
      | Pat.TupleStruct _ => Except.error EncodeError.unsupported
      | Pat.Tuple _ => Except.error EncodeError.unsupported
      | Pat.Other => Except.error EncodeError.unsupported
    let rest ← encode_pats mir matched_expr_value pats
    Except.ok (encoded_pat :: rest)
termination_by pats => sizeOf pats
decreasing_by all_goals (simp_wf <;> omega)

end

end SpecEncoder

namespace specifications

/-- Modelled from the spec: `prusti_interface::specifications` is not in
`src/`; a leaf expression carries its specification and expression
identifiers plus a reference to the type-checked surface syntax node
(field `expr`, the only field the encoder reads). -/
structure Expression where
  spec_id : Nat
  expr_id : Nat
  expr : hir.Expr_

/-- Modelled from the spec: one quantifier trigger, an ordered list of
surface terms (`TypedTrigger`). -/
structure TypedTrigger where
  terms : List Expression

/-- Modelled from the spec: the trigger set of a quantifier
(`TypedTriggerSet`). -/
structure TriggerSet where
  triggers : List TypedTrigger

/-- Modelled from the spec: the pattern of one quantifier bound-variable
declaration (`hir::Arg.pat`): a literal pattern is rendered to its printed
string, a binding pattern gives the bound identifier, and every other
pattern shape is unsupported. -/
inductive ArgPat where
| Lit (printed : String)
| Binding (name : String)
| Other

/-- Modelled from the spec: one quantifier bound-variable declaration
(`hir::Arg`), carrying its pattern and the static type the external
type-checker assigns to it (`hir_id_to_type`). -/
structure Arg where
  pat : ArgPat
  ty : hir.Ty

/-- Modelled from the spec: the bound-variable list of a quantifier
(`TypedForAllVars`, field `vars`). -/
structure ForAllVars where
  vars : List Arg

mutual

/-- Modelled from the spec: `prusti_interface`'s typed `AssertionKind` as
consumed by `encode_assertion` — a leaf expression, an ordered conjunction,
an implication whose left side is a leaf expression, or a quantifier with
bound variables, triggers, a filter and a body. -/
inductive AssertionKind where
| Expr (e : Expression)
| And (assertions : List Assertion)
| Implies (lhs : Expression) (rhs : Assertion)
| ForAll (vars : ForAllVars) (trigger_set : TriggerSet) (filter : Expression) (body : Expression)

/-- Modelled from the spec: a typed assertion wrapping one kind
(`TypedAssertion`). -/
inductive Assertion where
| mk (kind : AssertionKind)

end

/-- The kind wrapped by an assertion. -/
def Assertion.kind : Assertion → AssertionKind
| Assertion.mk k => k

end specifications

namespace SpecEncoder

/-- `SpecEncoder::encode_hir_arg`: encodes one quantifier bound variable —
the name is read off the pattern (literal patterns are printed, binding
patterns give the identifier, anything else is unsupported), and the
variable's static type must be an integer type ("Quantification is only
supported over integer values"); the result is an integer-sorted IR
variable. -/
def encode_hir_arg (arg : specifications.Arg) : Except EncodeError vir.LocalVar := do
  let var_name : String ←
    match arg.pat with
    | specifications.ArgPat.Lit printed => Except.ok printed
    | specifications.ArgPat.Binding name => Except.ok name
    | specifications.ArgPat.Other => Except.error EncodeError.unsupported
  match arg.ty with
  | hir.Ty.TyInt => Except.ok (vir.LocalVar.mk var_name vir.Typ.Int)
  | hir.Ty.TyUint => Except.ok (vir.LocalVar.mk var_name vir.Typ.Int)
  | _ => Except.error EncodeError.typeMismatch

/-- The bound-variable loop of the quantifier case
(`vars.vars.iter().map(|x| self.encode_hir_arg(x))`), stopping at the
first failure. -/
def encode_args : List specifications.Arg → Except EncodeError (List vir.LocalVar)
| [] => Except.ok []
| a :: rest => do
    let v ← encode_hir_arg a
    let vs ← encode_args rest
    Except.ok (v :: vs)

/-- The term loop of `SpecEncoder::encode_trigger`, stopping at the first
failure. -/
def encode_trigger_terms (mir : Mir) :
    List specifications.Expression → Except EncodeError (List vir.Expr)
| [] => Except.ok []
| t :: rest => do
    let e ← encode_hir_expr mir t.expr
    let es ← encode_trigger_terms mir rest
    Except.ok (e :: es)

/-- `SpecEncoder::encode_trigger`: each trigger term is lowered through
`encode_hir_expr` exactly like an ordinary expression. -/
def encode_trigger (mir : Mir) (trigger : specifications.TypedTrigger) :
    Except EncodeError (List vir.Expr) :=
  encode_trigger_terms mir trigger.terms

/-- The trigger loop of the quantifier case
(`trigger_set.triggers().iter().map(|x| self.encode_trigger(x))`). -/
def encode_triggers (mir : Mir) :
    List specifications.TypedTrigger → Except EncodeError (List (List vir.Expr))
| [] => Except.ok []
| t :: rest => do
    let e ← encode_trigger mir t
    let es ← encode_triggers mir rest
    Except.ok (e :: es)

mutual

/-- `SpecEncoder::encode_assertion`: the top-level driver — a leaf
delegates to `encode_hir_expr`; a conjunction encodes every child and
conjoins them; an implication becomes `lhs ==> rhs`; a quantifier encodes
its bound variables, triggers, and `filter ==> body`. -/
def encode_assertion (mir : Mir) : specifications.Assertion → Except EncodeError vir.Expr
| specifications.Assertion.mk (specifications.AssertionKind.Expr hir_expr) =>
    encode_hir_expr mir hir_expr.expr
| specifications.Assertion.mk (specifications.AssertionKind.And assertions) => do
    let encoded ← encode_assertion_list mir assertions
    match vir.conjoin encoded with
    | Except.ok e => Except.ok e
    | Except.error _ => Except.error EncodeError.unsupported
| specifications.Assertion.mk (specifications.AssertionKind.Implies lhs rhs) => do
    let encoded_lhs ← encode_hir_expr mir lhs.expr
    let encoded_rhs ← encode_assertion mir rhs
    Except.ok (vir.Expr.implies encoded_lhs encoded_rhs)
| specifications.Assertion.mk
    (specifications.AssertionKind.ForAll vars trigger_set filter body) => do
    let encoded_vars ← encode_args vars.vars
    let encoded_triggers ← encode_triggers mir trigger_set.triggers
    let encoded_filter ← encode_hir_expr mir filter.expr
    let encoded_body ← encode_hir_expr mir body.expr
    Except.ok (vir.Expr.forAll encoded_vars encoded_triggers
      (vir.Expr.implies encoded_filter encoded_body))
termination_by a => sizeOf a
decreasing_by all_goals (simp_wf <;> omega)

/-- The child-by-child encoding of a conjunction's assertion list. -/
def encode_assertion_list (mir : Mir) :
    List specifications.Assertion → Except EncodeError (List vir.Expr)
| [] => Except.ok []
| a :: rest => do
    let e ← encode_assertion mir a
    let es ← encode_assertion_list mir rest
    Except.ok (e :: es)
termination_by xs => sizeOf xs
decreasing_by all_goals (simp_wf <;> omega)

end

end SpecEncoder

namespace vir

/-- A runtime value of the IR evaluation semantics: an arbitrary-precision
integer or a boolean. -/
inductive Value where
| IntV (i : IntVal)
| BoolV (b : BoolVal)
deriving DecidableEq, Repr

/-- A store assigning values to IR places (the heap/environment the prover
interprets places against). -/
def Store := Place → Option Value

/-- Evaluation of a binary IR operator on two values (arithmetic on
integers, connectives on booleans, comparisons as in the backend logic);
`none` on a sort mismatch. -/
def evalBinOp : BinOpKind → Value → Value → Option Value
| BinOpKind.Add, Value.IntV a, Value.IntV b => some (Value.IntV (a + b))
| BinOpKind.Sub, Value.IntV a, Value.IntV b => some (Value.IntV (a - b))
| BinOpKind.Mul, Value.IntV a, Value.IntV b => some (Value.IntV (a * b))
| BinOpKind.Div, Value.IntV a, Value.IntV b => some (Value.IntV (Int.tdiv a b))
| BinOpKind.Rem, Value.IntV a, Value.IntV b => some (Value.IntV (Int.tmod a b))
| BinOpKind.And, Value.BoolV a, Value.BoolV b => some (Value.BoolV (a && b))
| BinOpKind.Or, Value.BoolV a, Value.BoolV b => some (Value.BoolV (a || b))
| BinOpKind.Xor, Value.BoolV a, Value.BoolV b => some (Value.BoolV (xor a b))
| BinOpKind.EqCmp, Value.IntV a, Value.IntV b => some (Value.BoolV (a = b))
| BinOpKind.EqCmp, Value.BoolV a, Value.BoolV b => some (Value.BoolV (a = b))
| BinOpKind.NeCmp, Value.IntV a, Value.IntV b => some (Value.BoolV (a ≠ b))
| BinOpKind.NeCmp, Value.BoolV a, Value.BoolV b => some (Value.BoolV (a ≠ b))
| BinOpKind.LtCmp, Value.IntV a, Value.IntV b => some (Value.BoolV (a < b))
| BinOpKind.LeCmp, Value.IntV a, Value.IntV b => some (Value.BoolV (a ≤ b))
| BinOpKind.GtCmp, Value.IntV a, Value.IntV b => some (Value.BoolV (a > b))
| BinOpKind.GeCmp, Value.IntV a, Value.IntV b => some (Value.BoolV (a ≥ b))
| BinOpKind.Implies, Value.BoolV a, Value.BoolV b => some (Value.BoolV (!a || b))
| _, _, _ => none

/-- Evaluation of a unary IR operator. -/
def evalUnOp : UnOpKind → Value → Option Value
| UnOpKind.Not, Value.BoolV b => some (Value.BoolV (!b))
| UnOpKind.Minus, Value.IntV i => some (Value.IntV (-i))
| _, _ => none

/-- Evaluation semantics of quantifier-free IR expressions against a
current-state store and an old-state store: places read the store,
`Old e` evaluates `e` against the old-state store, conditionals branch on
a boolean guard, and quantifiers are not evaluated here. -/
def eval (sigma sigmaOld : Store) : Expr → Option Value
| Expr.Place p => sigma p
| Expr.Const (Const.Int i) => some (Value.IntV i)
| Expr.Const (Const.Bool b) => some (Value.BoolV b)
| Expr.UnOp op e => do
    let v ← eval sigma sigmaOld e
    evalUnOp op v
| Expr.BinOp op l r => do
    let lv ← eval sigma sigmaOld l
    let rv ← eval sigma sigmaOld r
    evalBinOp op lv rv
| Expr.Ite g t e => do
    let gv ← eval sigma sigmaOld g
    match gv with
    | Value.BoolV true => eval sigma sigmaOld t
    | Value.BoolV false => eval sigma sigmaOld e
    | Value.IntV _ => none
| Expr.Old e => eval sigmaOld sigmaOld e
| Expr.ForAll _ _ _ => none

end vir

namespace untyped

/-- Modelled from the spec: `SpecificationId` — the opaque,
equality-comparable identifier of one top-level assertion (serialized as a
string). -/
abbrev SpecificationId := String

/-- Modelled from the spec: `ExpressionId` — the opaque identifier of a
leaf sub-expression within its specification (serialized as a
non-negative number). -/
abbrev ExpressionId := Nat

/-- `untyped::Expression` (from `prusti-specs`): the identifier pair of a
leaf expression (the surface syntax payload it also carries is irrelevant
to the wire format and omitted). -/
structure Expression where
  spec_id : SpecificationId
  id : ExpressionId
deriving DecidableEq, Repr

/-- Modelled from the spec: the untyped quantifier variable declarations
(`ForAllVars`), opaque to the wire format. -/
def ForAllVars := Unit

/-- Modelled from the spec: the untyped quantifier trigger set
(`TriggerSet`), opaque to the wire format. -/
def TriggerSet := Unit

mutual

/-- `common::AssertionKind` of the untyped assertion tree: leaf
expression, conjunction, implication, or quantifier. -/
inductive AssertionKind where
| Expr (e : Expression)
| And (assertions : List Assertion)
| Implies (lhs : Assertion) (rhs : Assertion)
| ForAll (vars : ForAllVars) (triggers : TriggerSet) (body : Assertion)

/-- `untyped::Assertion`: wraps one kind (`kind: Box<AssertionKind>`). -/
inductive Assertion where
| mk (kind : AssertionKind)

end

/-- The kind wrapped by an untyped assertion. -/
def Assertion.kind : Assertion → AssertionKind
| Assertion.mk k => k

end untyped

/-- A JSON document, the output domain of the standard structured text
encoding (`serde_json`) used by the wire format; object member lists are
kept in serialization order. -/
inductive Json where
| null
| bool (b : BoolVal)
| num (i : IntVal)
| str (s : String)
| arr (elems : List Json)
| obj (members : List (String × Json))

namespace json

/-- `json::Expression`: the wire skeleton of a leaf — the identifier pair
(spec_id, expr_id) and nothing else. -/
structure Expression where
  spec_id : untyped.SpecificationId
  expr_id : untyped.ExpressionId
deriving DecidableEq, Repr

mutual

/-- `json::AssertionKind`: the wire variant — `Expr`, `And`, or `Implies`;
the `ForAll` case is deliberately absent (commented out in the source). -/
inductive AssertionKind where
| Expr (e : Expression)
| And (assertions : List Assertion)
| Implies (lhs : Assertion) (rhs : Assertion)

/-- `json::Assertion`: wraps one wire kind (`kind: Box<AssertionKind>`). -/
inductive Assertion where
| mk (kind : AssertionKind)

end

/-- The kind wrapped by a wire assertion. -/
def Assertion.kind : Assertion → AssertionKind
| Assertion.mk k => k

/-- The derived `Serialize` of `json::Expression`: a JSON object with the
`spec_id` string and the `expr_id` number. -/
def Expression.toJson (e : Expression) : Json :=
  Json.obj [("spec_id", Json.str e.spec_id), ("expr_id", Json.num (e.expr_id : Int))]

mutual

/-- The derived `Serialize` of `json::AssertionKind`: serde's externally
tagged enum representation — a one-member object keyed by the variant
name, a tuple variant serializing to an array. -/
def AssertionKind.toJson : AssertionKind → Json
| AssertionKind.Expr e => Json.obj [("Expr", e.toJson)]
| AssertionKind.And assertions => Json.obj [("And", Json.arr (toJsonList assertions))]
| AssertionKind.Implies lhs rhs =>
    Json.obj [("Implies", Json.arr [lhs.toJson, rhs.toJson])]

/-- The derived `Serialize` of `json::Assertion`: an object with the
`kind` member. -/
def Assertion.toJson : Assertion → Json
| Assertion.mk k => Json.obj [("kind", AssertionKind.toJson k)]

/-- Element-wise serialization of an assertion list (`Vec<Assertion>`). -/
def toJsonList : List Assertion → List Json
| [] => []
| a :: rest => a.toJson :: toJsonList rest

end

/-- The derived `Deserialize` of `json::Expression` on an already-parsed
JSON document; `none` on any structural mismatch. -/
def Expression.fromJson : Json → Option Expression
| Json.obj [("spec_id", Json.str s), ("expr_id", Json.num i)] =>
    if 0 ≤ i then some (Expression.mk s i.toNat) else none
| _ => none

mutual

/-- The derived `Deserialize` of `json::AssertionKind`; `none` on any
structural mismatch. -/
def AssertionKind.fromJson : Json → Option AssertionKind
| Json.obj [("Expr", j)] => (Expression.fromJson j).map AssertionKind.Expr
| Json.obj [("And", Json.arr elems)] => (fromJsonList elems).map AssertionKind.And
| Json.obj [("Implies", Json.arr [jl, jr])] => do
    let lhs ← Assertion.fromJson jl
    let rhs ← Assertion.fromJson jr
    some (AssertionKind.Implies lhs rhs)
| _ => none

/-- The derived `Deserialize` of `json::Assertion`; `none` on any
structural mismatch. -/
def Assertion.fromJson : Json → Option Assertion
| Json.obj [("kind", j)] => (AssertionKind.fromJson j).map Assertion.mk
| _ => none

/-- Element-wise deserialization of an assertion array. -/
def fromJsonList : List Json → Option (List Assertion)
| [] => some []
| j :: rest => do
    let a ← Assertion.fromJson j
    let as_ ← fromJsonList rest
    some (a :: as_)

end

end json

namespace untyped

/-- `ToStructure<Expression> for untyped::Expression`: keep the identifier
pair (spec_id, id) and drop the expression payload. -/
def Expression.to_structure (e : Expression) : json.Expression :=
  json.Expression.mk e.spec_id e.id

mutual

/-- `ToStructure<AssertionKind> for untyped::AssertionKind`: `Expr`, `And`
and `Implies` map onto the wire variants; the `ForAll` case falls into the
catch-all `unimplemented!` — serializing a quantifier is unsupported. -/
def AssertionKind.to_structure : AssertionKind → Except EncodeError json.AssertionKind
| AssertionKind.Expr e => Except.ok (json.AssertionKind.Expr e.to_structure)
| AssertionKind.And assertions =>
    (to_structure_list assertions).map json.AssertionKind.And
| AssertionKind.Implies lhs rhs => do
    let l ← lhs.to_structure
    let r ← rhs.to_structure
    Except.ok (json.AssertionKind.Implies l r)
| AssertionKind.ForAll _ _ _ => Except.error EncodeError.unsupported

/-- `ToStructure<Assertion> for untyped::Assertion`: wrap the structured
kind. -/
def Assertion.to_structure : Assertion → Except EncodeError json.Assertion
| Assertion.mk k => (AssertionKind.to_structure k).map json.Assertion.mk

/-- The element-wise conversion of a conjunction's children
(`assertions.into_iter().map(..).collect()`), stopping at the first
failure. -/
def to_structure_list : List Assertion → Except EncodeError (List json.Assertion)
| [] => Except.ok []
| Assertion.mk k :: rest => do
    let a ← AssertionKind.to_structure k
    let as_ ← to_structure_list rest
    Except.ok (json.Assertion.mk a :: as_)

end

mutual

/-- The assertion tree is built only from Leaf/Conjunction/Implication
(no Quantifier anywhere). -/
def AssertionKind.quantFree : AssertionKind → BoolVal
| AssertionKind.Expr _ => true
| AssertionKind.And assertions => quantFreeList assertions
| AssertionKind.Implies lhs rhs => lhs.quantFree && rhs.quantFree
| AssertionKind.ForAll _ _ _ => false

/-- The assertion is quantifier-free. -/
def Assertion.quantFree : Assertion → BoolVal
| Assertion.mk k => k.quantFree

/-- Every assertion in the list is quantifier-free. -/
def quantFreeList : List Assertion → BoolVal
| [] => true
| a :: rest => a.quantFree && quantFreeList rest

end

mutual

/-- The assertion tree contains a Quantifier node somewhere. -/
def AssertionKind.hasForAll : AssertionKind → BoolVal
| AssertionKind.Expr _ => false
| AssertionKind.And assertions => hasForAllList assertions
| AssertionKind.Implies lhs rhs => lhs.hasForAll || rhs.hasForAll
| AssertionKind.ForAll _ _ _ => true

/-- The assertion contains a Quantifier node somewhere. -/
def Assertion.hasForAll : Assertion → BoolVal
| Assertion.mk k => k.hasForAll

/-- Some assertion in the list contains a Quantifier node. -/
def hasForAllList : List Assertion → BoolVal
| [] => false
| a :: rest => a.hasForAll || hasForAllList rest

end

mutual

/-- The decoded wire skeleton is identical in shape to the original tree
and agrees on every leaf's (spec_id, expr_id) pair. -/
def AssertionKind.matchesSkeleton : AssertionKind → json.AssertionKind → BoolVal
| AssertionKind.Expr e, json.AssertionKind.Expr e' =>
    e.spec_id = e'.spec_id && e.id = e'.expr_id
| AssertionKind.And assertions, json.AssertionKind.And assertions' =>
    matchesSkeletonList assertions assertions'
| AssertionKind.Implies lhs rhs, json.AssertionKind.Implies lhs' rhs' =>
    lhs.matchesSkeleton lhs' && rhs.matchesSkeleton rhs'
| _, _ => false

/-- Shape-and-leaf agreement of one assertion with one wire assertion. -/
def Assertion.matchesSkeleton : Assertion → json.Assertion → BoolVal
| Assertion.mk k, json.Assertion.mk k' => k.matchesSkeleton k'

/-- Element-wise shape-and-leaf agreement of two assertion lists (equal
lengths required). -/
def matchesSkeletonList : List Assertion → List json.Assertion → BoolVal
| [], [] => true
| a :: rest, a' :: rest' => a.matchesSkeleton a' && matchesSkeletonList rest rest'
| _, _ => false

end

end untyped

/-- `to_json_string`: serialize the structured skeleton of an untyped
assertion. The textual rendering of the resulting JSON document by
`serde_json::to_string` (external) is modelled by the document itself;
the `unwrap` of the source can only fail through `to_structure`'s
quantifier case, modelled as the error. -/
def to_json_string (assertion : untyped.Assertion) : Except EncodeError Json :=
  (assertion.to_structure).map json.Assertion.toJson

/-- `json::Assertion::from_json_string`: decode a wire string. The
external `serde_json` text parser is modelled by its outcome — `none` for
a syntactically invalid string, `some j` for a string parsing to the JSON
document `j`; a parse failure or any structural mismatch makes the
source's `unwrap` panic, a fatal serialization error with no recovered
value. -/
def json.Assertion.from_json_string : Option Json → Except EncodeError json.Assertion
| none => Except.error EncodeError.serializationError
| some j =>
    match json.Assertion.fromJson j with
    | some a => Except.ok a
    | none => Except.error EncodeError.serializationError

/-! Concrete example material used by the theorems below. -/

/-- A procedure with one argument `x` (MIR local `_1`; `_0` is the return
slot). -/
def exMirX : Mir := Mir.mk [none, some "x"]

/-- The surface variable reference `x` (an unsigned-integer argument). -/
def exPathX : hir.Expr_ := hir.Expr_.ExprPath "x" hir.Ty.TyUint

/-- An unsuffixed integer literal expression. -/
def exLit (n : Nat) : hir.Expr_ := hir.Expr_.ExprLit (hir.LitKind.Int n hir.LitIntType.Unsuffixed)

/-- A guard-free match arm with a single literal pattern. -/
def exArmLit (n : Nat) (body : hir.Expr_) : hir.Arm := hir.Arm.mk [hir.Pat.Lit (exLit n)] none body

/-- A guard-free match arm with a single wildcard pattern. -/
def exArmWild (body : hir.Expr_) : hir.Arm := hir.Arm.mk [hir.Pat.Wild] none body

/-- The surface expression `match x { 0 => 10, 1 => 20, _ => 30 }`. -/
def exMatch : hir.Expr_ :=
  hir.Expr_.ExprMatch exPathX [exArmLit 0 (exLit 10), exArmLit 1 (exLit 20), exArmWild (exLit 30)]

/-- The IR place `_1.val_int` holding the integer value of `x`. -/
def exPlaceX : vir.Place :=
  (vir.Place.Base (vir.LocalVar.mk "_1" (vir.Typ.TypedRef "uint"))).access
    (vir.Field.mk "val_int" vir.Typ.Int)

/-- The encoded scrutinee value of `x`. -/
def exScrutX : vir.Expr := vir.Expr.Place exPlaceX

/-- The expected desugaring `ite(x==0, 10, ite(x==1, 20, 30))`. -/
def exDesugared : vir.Expr :=
  vir.Expr.ite (vir.Expr.eq_cmp exScrutX (vir.Expr.Const (vir.Const.Int 0)))
    (vir.Expr.Const (vir.Const.Int 10))
    (vir.Expr.ite (vir.Expr.eq_cmp exScrutX (vir.Expr.Const (vir.Const.Int 1)))
      (vir.Expr.Const (vir.Const.Int 20))
      (vir.Expr.Const (vir.Const.Int 30)))

/-- The store binding `x` (that is, the place `_1.val_int`) to 1. -/
def exStoreX : vir.Store := fun p => if p = exPlaceX then some (vir.Value.IntV 1) else none

theorem exMirX_find_x : Mir.find_local exMirX "x" = some 1 := rfl

/-- C1. The match desugarer is a right-fold over the ordered arm list: one
remaining arm yields its encoded body; otherwise the result is a
conditional whose guard is the disjunction of the first arm's pattern
conditions (wildcard gives the always-true condition, a literal pattern
gives scrutinee-equals-literal with the same `eq_cmp` operator as binary
`==`), whose then-branch is the first arm's encoded body and whose
else-branch is the desugaring of the remaining arms; in particular
`match x { 0 => 10, 1 => 20, _ => 30 }` encodes to
`ite(x==0, 10, ite(x==1, 20, 30))`, which at x=1 evaluates identically to
directly encoding the second arm's body `20`. -/
theorem C1_match_desugar_right_fold :
    (∀ (mir : Mir) (b : hir.Expr_) (v : vir.Expr) (pats : List hir.Pat)
       (g : Option hir.Expr_) (body : hir.Expr_),
       SpecEncoder.encode_match_arms mir b v [hir.Arm.mk pats g body] =
         SpecEncoder.encode_hir_expr mir body) ∧
    (∀ (mir : Mir) (b : hir.Expr_) (v : vir.Expr) (pats : List hir.Pat)
       (g : Option hir.Expr_) (body : hir.Expr_) (arm2 : hir.Arm) (rest : List hir.Arm),
       SpecEncoder.encode_match_arms mir b v (hir.Arm.mk pats g body :: arm2 :: rest) =
         (do
           let encoded_body ← SpecEncoder.encode_hir_expr mir body
           let encoded_pats ← SpecEncoder.encode_pats mir v pats
           let encoded_else ← SpecEncoder.encode_match_arms mir b v (arm2 :: rest)
           Except.ok (vir.Expr.ite (vir.disjoin encoded_pats) encoded_body encoded_else))) ∧
    (∀ (mir : Mir) (v : vir.Expr) (ps : List hir.Pat),
       SpecEncoder.encode_pats mir v (hir.Pat.Wild :: ps) =
         (SpecEncoder.encode_pats mir v ps).map
           (fun cs => vir.Expr.Const (vir.Const.Bool true) :: cs)) ∧
    (∀ (mir : Mir) (v : vir.Expr) (lit : hir.Expr_) (ps : List hir.Pat),
       SpecEncoder.encode_pats mir v (hir.Pat.Lit lit :: ps) =
         (do
           let target ← SpecEncoder.encode_hir_expr mir lit
           let cs ← SpecEncoder.encode_pats mir v ps
           Except.ok (vir.Expr.eq_cmp v target :: cs))) ∧
    (∀ (mir : Mir) (l r : hir.Expr_),
       SpecEncoder.encode_hir_expr mir (hir.Expr_.ExprBinary hir.BinOp_.BiEq l r) =
         (do
           let le ← SpecEncoder.encode_hir_expr mir l
           let re ← SpecEncoder.encode_hir_expr mir r
           Except.ok (vir.Expr.eq_cmp le re))) ∧
    SpecEncoder.encode_hir_expr exMirX exMatch = Except.ok exDesugared ∧
    SpecEncoder.encode_hir_expr exMirX (exLit 20) =
      Except.ok (vir.Expr.Const (vir.Const.Int 20)) ∧
    vir.eval exStoreX exStoreX exDesugared =
      vir.eval exStoreX exStoreX (vir.Expr.Const (vir.Const.Int 20)) ∧
    vir.eval exStoreX exStoreX exDesugared = some (vir.Value.IntV 20) := by
  refine ⟨?_, ?_, ?_, ?_, ?_, ?_, ?_, ?_, ?_⟩
  · intro mir b v pats g body
    simp [SpecEncoder.encode_match_arms]
    cases SpecEncoder.encode_hir_expr mir body <;> rfl
  · intro mir b v pats g body arm2 rest
    simp [SpecEncoder.encode_match_arms]
  · intro mir v ps
    simp [SpecEncoder.encode_pats]
    cases SpecEncoder.encode_pats mir v ps <;> rfl
  · intro mir v lit ps
    simp [SpecEncoder.encode_pats]
    cases SpecEncoder.encode_hir_expr mir lit <;> rfl
  · intro mir l r
    simp [SpecEncoder.encode_hir_expr]
  · simp [SpecEncoder.encode_hir_expr, SpecEncoder.encode_match_arms, SpecEncoder.encode_pats,
      SpecEncoder.arms_ok, exMatch, exPathX, exLit, exArmLit, exArmWild,
      SpecEncoder.encode_hir_path_expr, SpecEncoder.encode_hir_path,
      SpecEncoder.encode_hir_variable, exMirX_find_x, SpecEncoder.encode_literal_expr,
      encode_type_predicate_use, exDesugared, exScrutX, exPlaceX, vir.disjoin,
      vir.Place.access, vir.Expr.eq_cmp, vir.Expr.ite, hir.Arm.pats, hir.Arm.guard,
      hir.Arm.body, SpecEncoder.pat_ok, hir.Expr_.node_ty, vir.Typ.is_ref,
      vir.Place.get_type, Bind.bind, Except.bind, Functor.map, Except.map, Pure.pure,
      Except.pure]
    rfl
  · simp [SpecEncoder.encode_hir_expr, exLit, SpecEncoder.encode_literal_expr, Functor.map,
      Except.map]
  · rfl
  · rfl

/-- `match x { 0 => 10, () => 30 }` — the structurally-empty aggregate
pattern sits in the final (default) arm. -/
def exMatchAggLast : hir.Expr_ :=
  hir.Expr_.ExprMatch exPathX [exArmLit 0 (exLit 10), hir.Arm.mk [hir.Pat.Tuple 0] none (exLit 30)]

/-- `match x { () => 30, 0 => 10 }` — the same aggregate pattern sits in a
non-final arm. -/
def exMatchAggFirst : hir.Expr_ :=
  hir.Expr_.ExprMatch exPathX [hir.Arm.mk [hir.Pat.Tuple 0] none (exLit 30), exArmLit 0 (exLit 10)]

/-- C10. The final remaining arm's patterns are never examined — only its
body is encoded — so a structurally-empty aggregate pattern is harmless in
the last arm (the arm's body becomes the unconditional default) although
the same pattern aborts the encoding with an unsupported-construct error
whenever it occurs in an earlier arm. -/
theorem C10_final_arm_patterns_ignored :
    (∀ (mir : Mir) (b : hir.Expr_) (v : vir.Expr) (pats : List hir.Pat)
       (g : Option hir.Expr_) (body : hir.Expr_),
       SpecEncoder.encode_match_arms mir b v [hir.Arm.mk pats g body] =
         SpecEncoder.encode_hir_expr mir body) ∧
    (∀ (mir : Mir) (v : vir.Expr) (ps : List hir.Pat),
       SpecEncoder.encode_pats mir v (hir.Pat.Tuple 0 :: ps) =
         Except.error EncodeError.unsupported) ∧
    (∀ (mir : Mir) (v : vir.Expr) (ps : List hir.Pat),
       SpecEncoder.encode_pats mir v (hir.Pat.Struct 0 :: ps) =
         Except.error EncodeError.unsupported) ∧
    (∀ (mir : Mir) (v : vir.Expr) (ps : List hir.Pat),
       SpecEncoder.encode_pats mir v (hir.Pat.TupleStruct 0 :: ps) =
         Except.error EncodeError.unsupported) ∧
    SpecEncoder.encode_hir_expr exMirX exMatchAggLast =
      Except.ok (vir.Expr.ite
        (vir.Expr.eq_cmp exScrutX (vir.Expr.Const (vir.Const.Int 0)))
        (vir.Expr.Const (vir.Const.Int 10))
        (vir.Expr.Const (vir.Const.Int 30))) ∧
    SpecEncoder.encode_hir_expr exMirX exMatchAggFirst =
      Except.error EncodeError.unsupported := by
  refine ⟨?_, ?_, ?_, ?_, ?_, ?_⟩
  · intro mir b v pats g body
    simp [SpecEncoder.encode_match_arms]
    cases SpecEncoder.encode_hir_expr mir body <;> rfl
  · intro mir v ps
    simp [SpecEncoder.encode_pats]
    rfl
  · intro mir v ps
    simp [SpecEncoder.encode_pats]
    rfl
  · intro mir v ps
    simp [SpecEncoder.encode_pats]
    rfl
  · simp [SpecEncoder.encode_hir_expr, SpecEncoder.encode_match_arms, SpecEncoder.encode_pats,
      SpecEncoder.arms_ok, exMatchAggLast, exPathX, exLit, exArmLit,
      SpecEncoder.encode_hir_path_expr, SpecEncoder.encode_hir_path,
      SpecEncoder.encode_hir_variable, exMirX_find_x, SpecEncoder.encode_literal_expr,
      encode_type_predicate_use, exScrutX, exPlaceX, vir.disjoin, vir.Place.access,
      vir.Expr.eq_cmp, vir.Expr.ite, hir.Arm.pats, hir.Arm.guard, hir.Arm.body,
      SpecEncoder.pat_ok, hir.Expr_.node_ty, vir.Typ.is_ref, vir.Place.get_type, Bind.bind,
      Except.bind, Functor.map, Except.map, Pure.pure, Except.pure]
    rfl
  · simp [SpecEncoder.encode_hir_expr, SpecEncoder.encode_match_arms, SpecEncoder.encode_pats,
      SpecEncoder.arms_ok, exMatchAggFirst, exPathX, exLit, exArmLit,
      SpecEncoder.encode_hir_path_expr, SpecEncoder.encode_hir_path,
      SpecEncoder.encode_hir_variable, exMirX_find_x, SpecEncoder.encode_literal_expr,
      encode_type_predicate_use, vir.Place.access, hir.Arm.pats, hir.Arm.guard, hir.Arm.body,
      SpecEncoder.pat_ok, hir.Expr_.node_ty, vir.Typ.is_ref, vir.Place.get_type, Bind.bind,
      Except.bind, Functor.map, Except.map, Pure.pure, Except.pure]

/-- A procedure with one argument `k` (MIR local `_1`). -/
def exMirK : Mir := Mir.mk [none, some "k"]

theorem exMirK_find_k : Mir.find_local exMirK "k" = some 1 := rfl

/-- A quantifier `forall k: int :: true ==> k` over a procedure that
already has an argument named `k`: the body's reference to `k` names the
procedure binding. -/
def exForAllShadow : specifications.Assertion :=
  specifications.Assertion.mk (specifications.AssertionKind.ForAll
    (specifications.ForAllVars.mk [specifications.Arg.mk (specifications.ArgPat.Binding "k") hir.Ty.TyInt])
    (specifications.TriggerSet.mk [])
    (specifications.Expression.mk 0 0 (hir.Expr_.ExprLit (hir.LitKind.Bool true)))
    (specifications.Expression.mk 0 1 (hir.Expr_.ExprPath "k" hir.Ty.TyUint)))

/-- The IR place `_1.val_int` of the procedure binding `k`. -/
def exPlaceK : vir.Place :=
  (vir.Place.Base (vir.LocalVar.mk "_1" (vir.Typ.TypedRef "uint"))).access
    (vir.Field.mk "val_int" vir.Typ.Int)

/-- C3. Base-variable resolution: the distinguished name `result` always
resolves to the canonical return slot `_0`, whatever the procedure's
bindings; any other name matching a procedure-scope binding resolves to
that binding's canonical slot `_i` — also inside a quantifier, as the
concrete shadowing instance shows; only a name matching no binding is
treated as a freshly introduced quantified variable (which must then be
integer-typed). -/
theorem C3_base_variable_resolution :
    (∀ (mir : Mir) (ty : hir.Ty),
       SpecEncoder.encode_hir_variable mir "result" ty =
         Except.ok (vir.LocalVar.mk "_0" (vir.Typ.TypedRef (encode_type_predicate_use ty)))) ∧
    (∀ (mir : Mir) (name : String) (ty : hir.Ty) (i : Nat),
       name ≠ "result" → mir.find_local name = some i →
       SpecEncoder.encode_hir_variable mir name ty =
         Except.ok (vir.LocalVar.mk ("_" ++ toString i)
           (vir.Typ.TypedRef (encode_type_predicate_use ty)))) ∧
    (∀ (mir : Mir) (name : String) (ty : hir.Ty),
       name ≠ "result" → mir.find_local name = none →
       SpecEncoder.encode_hir_variable mir name ty =
         (match ty with
          | hir.Ty.TyInt => Except.ok (vir.LocalVar.mk name vir.Typ.Int)
          | hir.Ty.TyUint => Except.ok (vir.LocalVar.mk name vir.Typ.Int)
          | _ => Except.error EncodeError.typeMismatch)) ∧
    SpecEncoder.encode_assertion exMirK exForAllShadow =
      Except.ok (vir.Expr.forAll [vir.LocalVar.mk "k" vir.Typ.Int] []
        (vir.Expr.implies (vir.Expr.Const (vir.Const.Bool true))
          (vir.Expr.Place exPlaceK))) := by
  refine ⟨?_, ?_, ?_, ?_⟩
  · intro mir ty
    simp [SpecEncoder.encode_hir_variable]
  · intro mir name ty i hne hfind
    simp [SpecEncoder.encode_hir_variable, hne, hfind]
  · intro mir name ty hne hfind
    cases ty <;> simp [SpecEncoder.encode_hir_variable, hne, hfind]
  · simp [SpecEncoder.encode_assertion, SpecEncoder.encode_args, SpecEncoder.encode_hir_arg,
      SpecEncoder.encode_triggers, SpecEncoder.encode_hir_expr,
      SpecEncoder.encode_hir_path_expr, SpecEncoder.encode_hir_path,
      SpecEncoder.encode_hir_variable, exMirK_find_k, SpecEncoder.encode_literal_expr,
      encode_type_predicate_use, exForAllShadow, exPlaceK, vir.Place.access,
      vir.Expr.forAll, vir.Expr.implies, hir.Expr_.node_ty, vir.Typ.is_ref,
      vir.Place.get_type, Bind.bind, Except.bind, Functor.map, Except.map, Pure.pure,
      Except.pure]
    rfl

/-- C3 witness: the hypotheses of the resolution cases discharged at
concrete inputs — `x` bound to local 1 in `exMirX`, `y` unbound with
integer and with boolean type. -/
theorem C3_base_variable_resolution_witness :
    SpecEncoder.encode_hir_variable exMirX "x" hir.Ty.TyUint =
      Except.ok (vir.LocalVar.mk "_1" (vir.Typ.TypedRef (encode_type_predicate_use hir.Ty.TyUint))) ∧
    SpecEncoder.encode_hir_variable exMirX "y" hir.Ty.TyInt =
      Except.ok (vir.LocalVar.mk "y" vir.Typ.Int) ∧
    SpecEncoder.encode_hir_variable exMirX "y" hir.Ty.TyBool =
      Except.error EncodeError.typeMismatch := by
  refine ⟨?_, ?_, ?_⟩
  · have h := C3_base_variable_resolution.2.1 exMirX "x" hir.Ty.TyUint 1 (by decide) (by rfl)
    simpa using h
  · have h := C3_base_variable_resolution.2.2.1 exMirX "y" hir.Ty.TyInt (by decide) (by rfl)
    simpa using h
  · have h := C3_base_variable_resolution.2.2.1 exMirX "y" hir.Ty.TyBool (by decide) (by rfl)
    simpa using h

/-- A successfully encoded bound variable is always integer-sorted. -/
theorem encode_hir_arg_ok_typ (a : specifications.Arg) (v : vir.LocalVar)
    (h : SpecEncoder.encode_hir_arg a = Except.ok v) : v.typ = vir.Typ.Int := by
  obtain ⟨pat, ty⟩ := a
  cases pat <;> cases ty <;>
    simp [SpecEncoder.encode_hir_arg, Bind.bind, Except.bind] at h <;> simp [← h]

/-- A successfully encoded bound-variable list keeps every variable (same
length) and sorts every variable as an integer. -/
theorem encode_args_ok : ∀ (vars : List specifications.Arg) (vs : List vir.LocalVar),
    SpecEncoder.encode_args vars = Except.ok vs →
    vs.length = vars.length ∧ ∀ v ∈ vs, v.typ = vir.Typ.Int
| [], vs => by
    intro h
    simp [SpecEncoder.encode_args] at h
    subst h
    simp
| a :: rest, vs => by
    intro h
    simp [SpecEncoder.encode_args, Bind.bind, Except.bind] at h
    cases ha : SpecEncoder.encode_hir_arg a with
    | error e => rw [ha] at h; cases h
    | ok v =>
        rw [ha] at h
        cases hr : SpecEncoder.encode_args rest with
        | error e => rw [hr] at h; cases h
        | ok vs2 =>
            rw [hr] at h
            simp [Pure.pure, Except.pure] at h
            obtain ⟨h1, h2⟩ := encode_args_ok rest vs2 hr
            subst h
            refine ⟨by simp [h1], ?_⟩
            intro w hw
            rcases List.mem_cons.mp hw with hw | hw
            · subst hw; exact encode_hir_arg_ok_typ a w ha
            · exact h2 w hw

/-- C4. Quantifier bound variables: a variable binding (named pattern)
whose static type is not an integer type fails fatally with TypeMismatch
— the failure propagates through the quantifier case of the assertion
encoder, so the binding is never silently coerced or dropped — and every
integer-typed bound variable is encoded as an integer-sorted IR variable
(a successful encoding keeps every variable and sorts them all as
integers). -/
theorem C4_quantifier_type_guard :
    (∀ (arg : specifications.Arg) (nm : String),
       (arg.pat = specifications.ArgPat.Binding nm ∨ arg.pat = specifications.ArgPat.Lit nm) →
       ((arg.ty ≠ hir.Ty.TyInt ∧ arg.ty ≠ hir.Ty.TyUint) →
          SpecEncoder.encode_hir_arg arg = Except.error EncodeError.typeMismatch) ∧
       ((arg.ty = hir.Ty.TyInt ∨ arg.ty = hir.Ty.TyUint) →
          SpecEncoder.encode_hir_arg arg = Except.ok (vir.LocalVar.mk nm vir.Typ.Int))) ∧
    (∀ (vars : List specifications.Arg) (vs : List vir.LocalVar),
       SpecEncoder.encode_args vars = Except.ok vs →
       vs.length = vars.length ∧ ∀ v ∈ vs, v.typ = vir.Typ.Int) ∧
    (∀ (mir : Mir) (vars : specifications.ForAllVars)
       (trigger_set : specifications.TriggerSet)
       (filter body : specifications.Expression) (eps : EncodeError),
       SpecEncoder.encode_args vars.vars = Except.error eps →
       SpecEncoder.encode_assertion mir (specifications.Assertion.mk
         (specifications.AssertionKind.ForAll vars trigger_set filter body)) =
           Except.error eps) := by
  refine ⟨?_, encode_args_ok, ?_⟩
  · intro arg nm hpat
    obtain ⟨pat, ty⟩ := arg
    simp only at hpat
    constructor
    · intro hty
      rcases hpat with h | h <;> subst h <;> cases ty <;>
        simp_all [SpecEncoder.encode_hir_arg, Bind.bind, Except.bind]
    · intro hty
      rcases hpat with h | h <;> subst h <;> rcases hty with h2 | h2 <;> simp only at h2 <;>
        subst h2 <;> simp [SpecEncoder.encode_hir_arg, Bind.bind, Except.bind, Pure.pure,
          Except.pure]
  · intro mir vars trigger_set filter body eps h
    simp [SpecEncoder.encode_assertion, h, Bind.bind, Except.bind]

/-- C4 witness: the guard at concrete inputs — binding `n` at boolean type
is a TypeMismatch and the failure propagates through a concrete
quantifier; binding `n` at integer type succeeds as an integer-sorted
variable. -/
theorem C4_quantifier_type_guard_witness :
    SpecEncoder.encode_hir_arg
        (specifications.Arg.mk (specifications.ArgPat.Binding "n") hir.Ty.TyBool) =
      Except.error EncodeError.typeMismatch ∧
    SpecEncoder.encode_hir_arg
        (specifications.Arg.mk (specifications.ArgPat.Binding "n") hir.Ty.TyInt) =
      Except.ok (vir.LocalVar.mk "n" vir.Typ.Int) ∧
    SpecEncoder.encode_assertion exMirX (specifications.Assertion.mk
      (specifications.AssertionKind.ForAll
        (specifications.ForAllVars.mk
          [specifications.Arg.mk (specifications.ArgPat.Binding "n") hir.Ty.TyBool])
        (specifications.TriggerSet.mk [])
        (specifications.Expression.mk 0 0 (hir.Expr_.ExprLit (hir.LitKind.Bool true)))
        (specifications.Expression.mk 0 1 (hir.Expr_.ExprLit (hir.LitKind.Bool true))))) =
      Except.error EncodeError.typeMismatch := by
  have hbad := (C4_quantifier_type_guard.1
    (specifications.Arg.mk (specifications.ArgPat.Binding "n") hir.Ty.TyBool) "n"
    (Or.inl rfl)).1 (by exact ⟨by simp, by simp⟩)
  have hok := (C4_quantifier_type_guard.1
    (specifications.Arg.mk (specifications.ArgPat.Binding "n") hir.Ty.TyInt) "n"
    (Or.inl rfl)).2 (Or.inl rfl)
  refine ⟨hbad, hok, ?_⟩
  apply C4_quantifier_type_guard.2.2
  simp [SpecEncoder.encode_args, hbad, Bind.bind, Except.bind]

/-- A procedure with one boolean argument `b` (MIR local `_1`). -/
def exMirB : Mir := Mir.mk [none, some "b"]

theorem exMirB_find_b : Mir.find_local exMirB "b" = some 1 := rfl

/-- The surface variable reference `b` (a boolean argument). -/
def exPathB : hir.Expr_ := hir.Expr_.ExprPath "b" hir.Ty.TyBool

/-- The boolean literal `true`. -/
def exLitTrue : hir.Expr_ := hir.Expr_.ExprLit (hir.LitKind.Bool true)

/-- The IR place `_1.val_bool` holding the boolean value of `b`. -/
def exPlaceB : vir.Place :=
  (vir.Place.Base (vir.LocalVar.mk "_1" (vir.Typ.TypedRef "bool"))).access
    (vir.Field.mk "val_bool" vir.Typ.Bool)

/-- C5 counterexample: in the well-typed surface expression `true & b`
both operands are boolean-typed — the left operand is the boolean literal
`true` (encoding to a boolean constant) and the right operand's static
type is TyBool (encoding to a boolean place) — yet the encoder rejects the
bitwise `&` as unsupported instead of producing a logical AND, because its
boolean test only accepts a boolean-typed *place* on the left. -/
theorem C5_counterexample_bool_literal_left :
    SpecEncoder.encode_hir_expr exMirB exLitTrue =
      Except.ok (vir.Expr.Const (vir.Const.Bool true)) ∧
    hir.Expr_.node_ty exPathB = hir.Ty.TyBool ∧
    SpecEncoder.encode_hir_expr exMirB exPathB = Except.ok (vir.Expr.Place exPlaceB) ∧
    vir.Place.get_type exPlaceB = vir.Typ.Bool ∧
    SpecEncoder.encode_hir_expr exMirB
        (hir.Expr_.ExprBinary hir.BinOp_.BiBitAnd exLitTrue exPathB) =
      Except.error EncodeError.unsupported := by
  refine ⟨?_, rfl, ?_, rfl, ?_⟩ <;>
    simp [SpecEncoder.encode_hir_expr, SpecEncoder.encode_hir_path_expr,
      SpecEncoder.encode_hir_path, SpecEncoder.encode_hir_variable, exMirB_find_b,
      SpecEncoder.encode_literal_expr, SpecEncoder.is_bool_expr, encode_type_predicate_use,
      exPathB, exLitTrue, exPlaceB, vir.Place.access, hir.Expr_.node_ty, vir.Typ.is_ref,
      vir.Place.get_type, Bind.bind, Except.bind, Functor.map, Except.map, Pure.pure,
      Except.pure]
  rfl

/-- C5 (amended). Bitwise `&`, `|`, `^` are reinterpreted as logical
and/or/xor exactly when the left operand encodes to a boolean-typed
place; with any other left operand — even a boolean constant, so even
when both operands are boolean-typed — these operators are unsupported,
and the right operand's type is never examined. -/
theorem C5_bitwise_left_bool_place :
    ∀ (mir : Mir) (l r : hir.Expr_) (le re : vir.Expr),
      SpecEncoder.encode_hir_expr mir l = Except.ok le →
      SpecEncoder.encode_hir_expr mir r = Except.ok re →
      (SpecEncoder.encode_hir_expr mir (hir.Expr_.ExprBinary hir.BinOp_.BiBitAnd l r) =
         if SpecEncoder.is_bool_expr le then Except.ok (vir.Expr.and le re)
         else Except.error EncodeError.unsupported) ∧
      (SpecEncoder.encode_hir_expr mir (hir.Expr_.ExprBinary hir.BinOp_.BiBitOr l r) =
         if SpecEncoder.is_bool_expr le then Except.ok (vir.Expr.or le re)
         else Except.error EncodeError.unsupported) ∧
      (SpecEncoder.encode_hir_expr mir (hir.Expr_.ExprBinary hir.BinOp_.BiBitXor l r) =
         if SpecEncoder.is_bool_expr le then Except.ok (vir.Expr.xor le re)
         else Except.error EncodeError.unsupported) ∧
      (SpecEncoder.is_bool_expr le = true ↔
        ∃ p, le = vir.Expr.Place p ∧ vir.Place.get_type p = vir.Typ.Bool) := by
  intro mir l r le re hl hr
  refine ⟨?_, ?_, ?_, ?_⟩
  · simp [SpecEncoder.encode_hir_expr, hl, hr, Bind.bind, Except.bind]
  · simp [SpecEncoder.encode_hir_expr, hl, hr, Bind.bind, Except.bind]
  · simp [SpecEncoder.encode_hir_expr, hl, hr, Bind.bind, Except.bind]
  · cases le <;> simp [SpecEncoder.is_bool_expr]

/-- C5 witness: the amended statement at the concrete input `b & true`
with `b` a boolean place — the encoder produces the logical AND. -/
theorem C5_bitwise_left_bool_place_witness :
    SpecEncoder.encode_hir_expr exMirB
        (hir.Expr_.ExprBinary hir.BinOp_.BiBitAnd exPathB exLitTrue) =
      Except.ok (vir.Expr.and (vir.Expr.Place exPlaceB)
        (vir.Expr.Const (vir.Const.Bool true))) := by
  have henc : SpecEncoder.encode_hir_expr exMirB exPathB =
      Except.ok (vir.Expr.Place exPlaceB) := by
    simp [SpecEncoder.encode_hir_expr, SpecEncoder.encode_hir_path_expr,
      SpecEncoder.encode_hir_path, SpecEncoder.encode_hir_variable, exMirB_find_b,
      encode_type_predicate_use, exPathB, exPlaceB, vir.Place.access, hir.Expr_.node_ty,
      vir.Typ.is_ref, vir.Place.get_type, Bind.bind, Except.bind, Functor.map, Except.map]
    rfl
  have hlit : SpecEncoder.encode_hir_expr exMirB exLitTrue =
      Except.ok (vir.Expr.Const (vir.Const.Bool true)) := by
    simp [SpecEncoder.encode_hir_expr, SpecEncoder.encode_literal_expr, exLitTrue,
      Functor.map, Except.map]
  have h := (C5_bitwise_left_bool_place exMirB exPathB exLitTrue (vir.Expr.Place exPlaceB)
    (vir.Expr.Const (vir.Const.Bool true)) henc hlit).1
  simpa [SpecEncoder.is_bool_expr, exPlaceB, vir.Place.access, vir.Place.get_type] using h

/-- A procedure with two unsigned-integer arguments `a` (`_1`) and `c`
(`_2`). -/
def exMirAC : Mir := Mir.mk [none, some "a", some "c"]

theorem exMirAC_find_a : Mir.find_local exMirAC "a" = some 1 := rfl

theorem exMirAC_find_c : Mir.find_local exMirAC "c" = some 2 := rfl

/-- The surface variable reference `a`. -/
def exPathA : hir.Expr_ := hir.Expr_.ExprPath "a" hir.Ty.TyUint

/-- The surface variable reference `c`. -/
def exPathC : hir.Expr_ := hir.Expr_.ExprPath "c" hir.Ty.TyUint

/-- The IR place `_1.val_int` holding the integer value of `a`. -/
def exPlaceA : vir.Place :=
  (vir.Place.Base (vir.LocalVar.mk "_1" (vir.Typ.TypedRef "uint"))).access
    (vir.Field.mk "val_int" vir.Typ.Int)

/-- The IR place `_2.val_int` holding the integer value of `c`. -/
def exPlaceC : vir.Place :=
  (vir.Place.Base (vir.LocalVar.mk "_2" (vir.Typ.TypedRef "uint"))).access
    (vir.Field.mk "val_int" vir.Typ.Int)

/-- The lowered comparison `a == c`. -/
def exEqAC : vir.Expr := vir.Expr.eq_cmp (vir.Expr.Place exPlaceA) (vir.Expr.Place exPlaceC)

/-- The store binding `a` to 4 and `c` to 5. -/
def exStoreAC : vir.Store := fun p =>
  if p = exPlaceA then some (vir.Value.IntV 4)
  else if p = exPlaceC then some (vir.Value.IntV 5) else none

/-- C6 counterexample: for the integer arguments a=4, c=5 the operand
`a == c` encodes successfully to a boolean-typed IR value (its evaluation
yields a boolean), yet encoding `!(a == c)` fails fatally with
TypeMismatch instead of encoding and evaluating to true, because the
boolean test of unary not only accepts a boolean-typed *place*. -/
theorem C6_counterexample_not_of_comparison :
    SpecEncoder.encode_hir_expr exMirAC (hir.Expr_.ExprBinary hir.BinOp_.BiEq exPathA exPathC) =
      Except.ok exEqAC ∧
    vir.eval exStoreAC exStoreAC exEqAC = some (vir.Value.BoolV false) ∧
    SpecEncoder.encode_hir_expr exMirAC
        (hir.Expr_.ExprUnary hir.UnOp.UnNot hir.Ty.TyBool
          (hir.Expr_.ExprBinary hir.BinOp_.BiEq exPathA exPathC)) =
      Except.error EncodeError.typeMismatch := by
  refine ⟨?_, by rfl, ?_⟩ <;>
    simp [SpecEncoder.encode_hir_expr, SpecEncoder.encode_hir_path_expr,
      SpecEncoder.encode_hir_path, SpecEncoder.encode_hir_variable, exMirAC_find_a,
      exMirAC_find_c, SpecEncoder.is_bool_expr, encode_type_predicate_use, exPathA, exPathC,
      exEqAC, exPlaceA, exPlaceC, vir.Place.access, vir.Expr.eq_cmp, hir.Expr_.node_ty,
      vir.Typ.is_ref, vir.Place.get_type, Bind.bind, Except.bind, Functor.map, Except.map,
      Pure.pure, Except.pure] <;>
    (first | rfl | exact ⟨rfl, rfl⟩)

/-- C6 (amended). Encoding the unary logical-not `!e` succeeds and yields
the logical negation of the encoding of `e` exactly when `e` encodes to a
boolean-typed place; any other operand — including boolean-typed values
such as comparison results and boolean constants — fails fatally with
TypeMismatch. In particular, for integers a=4 and c=5, `!(a == c)` is
rejected with TypeMismatch rather than encoding (while `!b` on a boolean
place encodes and negates). -/
theorem C6_not_requires_bool_place :
    (∀ (mir : Mir) (ty : hir.Ty) (e : hir.Expr_) (v : vir.Expr),
       SpecEncoder.encode_hir_expr mir e = Except.ok v →
       SpecEncoder.encode_hir_expr mir (hir.Expr_.ExprUnary hir.UnOp.UnNot ty e) =
         (if SpecEncoder.is_bool_expr v then Except.ok (vir.Expr.not v)
          else Except.error EncodeError.typeMismatch)) ∧
    (∀ v : vir.Expr,
       SpecEncoder.is_bool_expr v = true ↔
         ∃ p, v = vir.Expr.Place p ∧ vir.Place.get_type p = vir.Typ.Bool) ∧
    SpecEncoder.encode_hir_expr exMirB
        (hir.Expr_.ExprUnary hir.UnOp.UnNot hir.Ty.TyBool exPathB) =
      Except.ok (vir.Expr.not (vir.Expr.Place exPlaceB)) ∧
    vir.eval (fun p => if p = exPlaceB then some (vir.Value.BoolV false) else none)
        (fun p => if p = exPlaceB then some (vir.Value.BoolV false) else none)
        (vir.Expr.not (vir.Expr.Place exPlaceB)) = some (vir.Value.BoolV true) := by
  refine ⟨?_, ?_, ?_, by rfl⟩
  · intro mir ty e v hv
    simp [SpecEncoder.encode_hir_expr, hv, Bind.bind, Except.bind]
  · intro v
    cases v <;> simp [SpecEncoder.is_bool_expr]
  · simp [SpecEncoder.encode_hir_expr, SpecEncoder.encode_hir_path_expr,
      SpecEncoder.encode_hir_path, SpecEncoder.encode_hir_variable, exMirB_find_b,
      SpecEncoder.is_bool_expr, encode_type_predicate_use, exPathB, exPlaceB,
      vir.Place.access, hir.Expr_.node_ty, vir.Typ.is_ref, vir.Place.get_type, Bind.bind,
      Except.bind, Functor.map, Except.map, Pure.pure, Except.pure]
    rfl

/-- C6 witness: the amended equation applied at the boolean place `b` and
at the comparison `a == c` — the former negates, the latter is a
TypeMismatch. -/
theorem C6_not_requires_bool_place_witness :
    SpecEncoder.encode_hir_expr exMirB
        (hir.Expr_.ExprUnary hir.UnOp.UnNot hir.Ty.TyBool exPathB) =
      Except.ok (vir.Expr.not (vir.Expr.Place exPlaceB)) ∧
    SpecEncoder.encode_hir_expr exMirAC
        (hir.Expr_.ExprUnary hir.UnOp.UnNot hir.Ty.TyBool
          (hir.Expr_.ExprBinary hir.BinOp_.BiEq exPathA exPathC)) =
      Except.error EncodeError.typeMismatch := by
  have hencB : SpecEncoder.encode_hir_expr exMirB exPathB =
      Except.ok (vir.Expr.Place exPlaceB) := by
    simp [SpecEncoder.encode_hir_expr, SpecEncoder.encode_hir_path_expr,
      SpecEncoder.encode_hir_path, SpecEncoder.encode_hir_variable, exMirB_find_b,
      encode_type_predicate_use, exPathB, exPlaceB, vir.Place.access, hir.Expr_.node_ty,
      vir.Typ.is_ref, vir.Place.get_type, Bind.bind, Except.bind, Functor.map, Except.map]
    rfl
  have hencEq : SpecEncoder.encode_hir_expr exMirAC
      (hir.Expr_.ExprBinary hir.BinOp_.BiEq exPathA exPathC) = Except.ok exEqAC := by
    simp [SpecEncoder.encode_hir_expr, SpecEncoder.encode_hir_path_expr,
      SpecEncoder.encode_hir_path, SpecEncoder.encode_hir_variable, exMirAC_find_a,
      exMirAC_find_c, encode_type_predicate_use, exPathA, exPathC, exEqAC, exPlaceA,
      exPlaceC, vir.Place.access, vir.Expr.eq_cmp, hir.Expr_.node_ty, vir.Typ.is_ref,
      vir.Place.get_type, Bind.bind, Except.bind, Functor.map, Except.map]
    exact ⟨rfl, rfl⟩
  have h1 := C6_not_requires_bool_place.1 exMirB hir.Ty.TyBool exPathB
    (vir.Expr.Place exPlaceB) hencB
  have h2 := C6_not_requires_bool_place.1 exMirAC hir.Ty.TyBool
    (hir.Expr_.ExprBinary hir.BinOp_.BiEq exPathA exPathC) exEqAC hencEq
  constructor
  · simpa [SpecEncoder.is_bool_expr, exPlaceB, vir.Place.access, vir.Place.get_type] using h1
  · simpa [SpecEncoder.is_bool_expr, exEqAC] using h2

/-- A leaf assertion wrapping the boolean literal `true`. -/
def exLeafTrue (i : Nat) : specifications.Assertion :=
  specifications.Assertion.mk (specifications.AssertionKind.Expr
    (specifications.Expression.mk 0 i (hir.Expr_.ExprLit (hir.LitKind.Bool true))))

/-- C7. Encoding a Conjunction node with an empty child list is rejected
rather than silently producing the constant true; for every non-empty
child list the result is the n-ary logical AND (left fold of `and`) of the
encodings of all children, which are encoded child by child in order. -/
theorem C7_conjunction_encoding :
    (∀ mir : Mir,
       SpecEncoder.encode_assertion mir
           (specifications.Assertion.mk (specifications.AssertionKind.And [])) =
         Except.error EncodeError.unsupported) ∧
    (∀ (mir : Mir) (xs : List specifications.Assertion) (e : vir.Expr) (es : List vir.Expr),
       SpecEncoder.encode_assertion_list mir xs = Except.ok (e :: es) →
       SpecEncoder.encode_assertion mir
           (specifications.Assertion.mk (specifications.AssertionKind.And xs)) =
         Except.ok (es.foldl vir.Expr.and e)) ∧
    (∀ (mir : Mir) (a : specifications.Assertion) (rest : List specifications.Assertion),
       SpecEncoder.encode_assertion_list mir (a :: rest) =
         (do
           let e ← SpecEncoder.encode_assertion mir a
           let es ← SpecEncoder.encode_assertion_list mir rest
           Except.ok (e :: es))) := by
  refine ⟨?_, ?_, ?_⟩
  · intro mir
    simp [SpecEncoder.encode_assertion, SpecEncoder.encode_assertion_list, vir.conjoin,
      Bind.bind, Except.bind]
  · intro mir xs e es h
    simp [SpecEncoder.encode_assertion, h, vir.conjoin, Bind.bind, Except.bind]
  · intro mir a rest
    simp [SpecEncoder.encode_assertion_list]

/-- C7 witness: a concrete two-leaf conjunction encodes to the binary AND
of the two encoded leaves, and the empty conjunction is rejected. -/
theorem C7_conjunction_encoding_witness :
    SpecEncoder.encode_assertion exMirX
        (specifications.Assertion.mk (specifications.AssertionKind.And
          [exLeafTrue 0, exLeafTrue 1])) =
      Except.ok (vir.Expr.and (vir.Expr.Const (vir.Const.Bool true))
        (vir.Expr.Const (vir.Const.Bool true))) ∧
    SpecEncoder.encode_assertion exMirX
        (specifications.Assertion.mk (specifications.AssertionKind.And [])) =
      Except.error EncodeError.unsupported := by
  have hlist : SpecEncoder.encode_assertion_list exMirX [exLeafTrue 0, exLeafTrue 1] =
      Except.ok [vir.Expr.Const (vir.Const.Bool true), vir.Expr.Const (vir.Const.Bool true)] := by
    simp [SpecEncoder.encode_assertion_list, SpecEncoder.encode_assertion, exLeafTrue,
      SpecEncoder.encode_hir_expr, SpecEncoder.encode_literal_expr, Bind.bind, Except.bind,
      Functor.map, Except.map, Pure.pure, Except.pure]
  have h := C7_conjunction_encoding.2.1 exMirX [exLeafTrue 0, exLeafTrue 1]
    (vir.Expr.Const (vir.Const.Bool true)) [vir.Expr.Const (vir.Const.Bool true)] hlist
  exact ⟨by simpa using h, C7_conjunction_encoding.1 exMirX⟩

/-- C9. The whitelisted `old` call: `old(expr)` (exactly one argument)
encodes to an old-snapshot wrapper around exactly the IR expression
produced by encoding `expr` alone, with no rewriting of the inner tree;
any other callee — a differently named path, a non-path callee, or `old`
at any other arity — is a fatal unsupported-construct error. -/
theorem C9_old_snapshot_transparency :
    (∀ (mir : Mir) (ty : hir.Ty) (e : hir.Expr_),
       SpecEncoder.encode_hir_expr mir
           (hir.Expr_.ExprCall (hir.Expr_.ExprPath "old" ty) [e]) =
         (SpecEncoder.encode_hir_expr mir e).map vir.Expr.old) ∧
    (∀ (mir : Mir) (ty : hir.Ty) (fn : String) (args : List hir.Expr_),
       fn ≠ "old" →
       SpecEncoder.encode_hir_expr mir
           (hir.Expr_.ExprCall (hir.Expr_.ExprPath fn ty) args) =
         Except.error EncodeError.unsupported) ∧
    (∀ (mir : Mir) (ty : hir.Ty) (args : List hir.Expr_),
       args.length ≠ 1 →
       SpecEncoder.encode_hir_expr mir
           (hir.Expr_.ExprCall (hir.Expr_.ExprPath "old" ty) args) =
         Except.error EncodeError.unsupported) ∧
    (∀ (mir : Mir) (callee : hir.Expr_) (args : List hir.Expr_),
       (∀ (nm : String) (ty : hir.Ty), callee ≠ hir.Expr_.ExprPath nm ty) →
       SpecEncoder.encode_hir_expr mir (hir.Expr_.ExprCall callee args) =
         Except.error EncodeError.unsupported) := by
  refine ⟨?_, ?_, ?_, ?_⟩
  · intro mir ty e
    simp [SpecEncoder.encode_hir_expr]
    cases SpecEncoder.encode_hir_expr mir e <;> rfl
  · intro mir ty fn args hfn
    unfold SpecEncoder.encode_hir_expr
    simp [hfn]
  · intro mir ty args hlen
    rcases args with _ | ⟨a, _ | ⟨b, t⟩⟩
    · simp [SpecEncoder.encode_hir_expr]
    · exact absurd rfl hlen
    · simp [SpecEncoder.encode_hir_expr]
  · intro mir callee args hcal
    cases callee
    case ExprPath nm ty => exact absurd rfl (hcal nm ty)
    all_goals unfold SpecEncoder.encode_hir_expr
    all_goals rfl

/-- C9 witness: the call facts at concrete inputs — `old(a)` wraps the
encoding of `a` in the snapshot marker unchanged; `foo(a)`, `old()` and a
literal callee are unsupported. -/
theorem C9_old_snapshot_transparency_witness :
    SpecEncoder.encode_hir_expr exMirAC
        (hir.Expr_.ExprCall (hir.Expr_.ExprPath "old" hir.Ty.TyUint) [exPathA]) =
      Except.ok (vir.Expr.old (vir.Expr.Place exPlaceA)) ∧
    SpecEncoder.encode_hir_expr exMirAC
        (hir.Expr_.ExprCall (hir.Expr_.ExprPath "foo" hir.Ty.TyUint) [exPathA]) =
      Except.error EncodeError.unsupported ∧
    SpecEncoder.encode_hir_expr exMirAC
        (hir.Expr_.ExprCall (hir.Expr_.ExprPath "old" hir.Ty.TyUint) []) =
      Except.error EncodeError.unsupported ∧
    SpecEncoder.encode_hir_expr exMirAC
        (hir.Expr_.ExprCall (hir.Expr_.ExprLit (hir.LitKind.Bool true)) [exPathA]) =
      Except.error EncodeError.unsupported := by
  have hencA : SpecEncoder.encode_hir_expr exMirAC exPathA =
      Except.ok (vir.Expr.Place exPlaceA) := by
    simp [SpecEncoder.encode_hir_expr, SpecEncoder.encode_hir_path_expr,
      SpecEncoder.encode_hir_path, SpecEncoder.encode_hir_variable, exMirAC_find_a,
      encode_type_predicate_use, exPathA, exPlaceA, vir.Place.access, hir.Expr_.node_ty,
      vir.Typ.is_ref, vir.Place.get_type, Bind.bind, Except.bind, Functor.map, Except.map]
    rfl
  refine ⟨?_, ?_, ?_, ?_⟩
  · rw [C9_old_snapshot_transparency.1 exMirAC hir.Ty.TyUint exPathA, hencA]
    rfl
  · exact C9_old_snapshot_transparency.2.1 exMirAC hir.Ty.TyUint "foo" [exPathA] (by decide)
  · exact C9_old_snapshot_transparency.2.2.1 exMirAC hir.Ty.TyUint [] (by decide)
  · exact C9_old_snapshot_transparency.2.2.2 exMirAC
      (hir.Expr_.ExprLit (hir.LitKind.Bool true)) [exPathA] (by intro nm ty h; cases h)

/-- Deserializing the serialization of a wire leaf gives it back. -/
theorem json.expr_fromJson_toJson (e : json.Expression) :
    json.Expression.fromJson e.toJson = some e := by
  obtain ⟨s, n⟩ := e
  simp [json.Expression.toJson, json.Expression.fromJson]

mutual

/-- Deserializing the serialization of a wire kind gives it back. -/
theorem json.kind_fromJson_toJson :
    ∀ k : json.AssertionKind, json.AssertionKind.fromJson k.toJson = some k
| json.AssertionKind.Expr e => by
    simp [json.AssertionKind.toJson, json.AssertionKind.fromJson,
      json.expr_fromJson_toJson]
| json.AssertionKind.And assertions => by
    simp [json.AssertionKind.toJson, json.AssertionKind.fromJson,
      json.fromJsonList_toJsonList assertions]
| json.AssertionKind.Implies lhs rhs => by
    simp [json.AssertionKind.toJson, json.AssertionKind.fromJson,
      json.assertion_fromJson_toJson lhs, json.assertion_fromJson_toJson rhs]

/-- Deserializing the serialization of a wire assertion gives it back. -/
theorem json.assertion_fromJson_toJson :
    ∀ a : json.Assertion, json.Assertion.fromJson a.toJson = some a
| json.Assertion.mk k => by
    simp [json.Assertion.toJson, json.Assertion.fromJson,
      json.kind_fromJson_toJson k]

/-- Deserializing the serialization of a wire assertion list gives it
back. -/
theorem json.fromJsonList_toJsonList :
    ∀ xs : List json.Assertion, json.fromJsonList (json.toJsonList xs) = some xs
| [] => by simp [json.toJsonList, json.fromJsonList]
| a :: rest => by
    simp [json.toJsonList, json.fromJsonList, json.assertion_fromJson_toJson a,
      json.fromJsonList_toJsonList rest]

end

mutual

/-- A quantifier-free untyped kind structures successfully, and the wire
skeleton agrees with it in shape and leaves. -/
theorem untyped.kind_to_structure_ok :
    ∀ k : untyped.AssertionKind, k.quantFree = true →
    ∃ jk, untyped.AssertionKind.to_structure k = Except.ok jk ∧
      untyped.AssertionKind.matchesSkeleton k jk = true
| untyped.AssertionKind.Expr e => by
    intro _
    refine ⟨json.AssertionKind.Expr e.to_structure, ?_, ?_⟩
    · simp [untyped.AssertionKind.to_structure]
    · simp [untyped.AssertionKind.matchesSkeleton, untyped.Expression.to_structure]
| untyped.AssertionKind.And assertions => by
    intro h
    simp [untyped.AssertionKind.quantFree] at h
    obtain ⟨l, hl, hm⟩ := untyped.to_structure_list_ok assertions h
    refine ⟨json.AssertionKind.And l, ?_, ?_⟩
    · simp [untyped.AssertionKind.to_structure, hl, Functor.map, Except.map]
    · simp [untyped.AssertionKind.matchesSkeleton, hm]
| untyped.AssertionKind.Implies lhs rhs => by
    intro h
    simp [untyped.AssertionKind.quantFree] at h
    obtain ⟨jl, hjl, hml⟩ := untyped.assertion_to_structure_ok lhs h.1
    obtain ⟨jr, hjr, hmr⟩ := untyped.assertion_to_structure_ok rhs h.2
    refine ⟨json.AssertionKind.Implies jl jr, ?_, ?_⟩
    · simp [untyped.AssertionKind.to_structure, hjl, hjr, Bind.bind, Except.bind, Pure.pure,
        Except.pure]
    · simp [untyped.AssertionKind.matchesSkeleton, hml, hmr]
| untyped.AssertionKind.ForAll _ _ _ => by
    intro h
    simp [untyped.AssertionKind.quantFree] at h

/-- A quantifier-free untyped assertion structures successfully with an
agreeing skeleton. -/
theorem untyped.assertion_to_structure_ok :
    ∀ a : untyped.Assertion, a.quantFree = true →
    ∃ ja, untyped.Assertion.to_structure a = Except.ok ja ∧
      untyped.Assertion.matchesSkeleton a ja = true
| untyped.Assertion.mk k => by
    intro h
    simp [untyped.Assertion.quantFree] at h
    obtain ⟨jk, hjk, hm⟩ := untyped.kind_to_structure_ok k h
    refine ⟨json.Assertion.mk jk, ?_, ?_⟩
    · simp [untyped.Assertion.to_structure, hjk, Functor.map, Except.map]
    · simp [untyped.Assertion.matchesSkeleton, hm]

/-- A quantifier-free untyped assertion list structures successfully with
element-wise agreeing skeletons. -/
theorem untyped.to_structure_list_ok :
    ∀ xs : List untyped.Assertion, untyped.quantFreeList xs = true →
    ∃ l, untyped.to_structure_list xs = Except.ok l ∧
      untyped.matchesSkeletonList xs l = true
| [] => by
    intro _
    exact ⟨[], by simp [untyped.to_structure_list], by simp [untyped.matchesSkeletonList]⟩
| untyped.Assertion.mk k :: rest => by
    intro h
    simp [untyped.quantFreeList, untyped.Assertion.quantFree] at h
    obtain ⟨jk, hjk, hmk⟩ := untyped.kind_to_structure_ok k h.1
    obtain ⟨l, hl, hml⟩ := untyped.to_structure_list_ok rest h.2
    refine ⟨json.Assertion.mk jk :: l, ?_, ?_⟩
    · simp [untyped.to_structure_list, hjk, hl, Bind.bind, Except.bind, Pure.pure,
        Except.pure]
    · simp [untyped.matchesSkeletonList, untyped.Assertion.matchesSkeleton, hmk, hml]

end

mutual

/-- A kind is quantifier-free exactly when it contains no quantifier. -/
theorem untyped.kind_quantFree_eq_not_hasForAll :
    ∀ k : untyped.AssertionKind, k.quantFree = !k.hasForAll
| untyped.AssertionKind.Expr e => by
    simp [untyped.AssertionKind.quantFree, untyped.AssertionKind.hasForAll]
| untyped.AssertionKind.And assertions => by
    simp [untyped.AssertionKind.quantFree, untyped.AssertionKind.hasForAll,
      untyped.quantFreeList_eq_not_hasForAllList assertions]
| untyped.AssertionKind.Implies lhs rhs => by
    simp [untyped.AssertionKind.quantFree, untyped.AssertionKind.hasForAll,
      untyped.assertion_quantFree_eq_not_hasForAll lhs,
      untyped.assertion_quantFree_eq_not_hasForAll rhs]
| untyped.AssertionKind.ForAll _ _ _ => by
    simp [untyped.AssertionKind.quantFree, untyped.AssertionKind.hasForAll]

/-- An assertion is quantifier-free exactly when it contains no
quantifier. -/
theorem untyped.assertion_quantFree_eq_not_hasForAll :
    ∀ a : untyped.Assertion, a.quantFree = !a.hasForAll
| untyped.Assertion.mk k => by
    simp [untyped.Assertion.quantFree, untyped.Assertion.hasForAll,
      untyped.kind_quantFree_eq_not_hasForAll k]

/-- A list is quantifier-free exactly when no element contains a
quantifier. -/
theorem untyped.quantFreeList_eq_not_hasForAllList :
    ∀ xs : List untyped.Assertion, untyped.quantFreeList xs = !untyped.hasForAllList xs
| [] => by simp [untyped.quantFreeList, untyped.hasForAllList]
| a :: rest => by
    simp [untyped.quantFreeList, untyped.hasForAllList,
      untyped.assertion_quantFree_eq_not_hasForAll a,
      untyped.quantFreeList_eq_not_hasForAllList rest]

end

mutual

/-- A kind containing a quantifier fails to structure, with the
unsupported-construct error. -/
theorem untyped.kind_to_structure_hasForAll :
    ∀ k : untyped.AssertionKind, k.hasForAll = true →
    untyped.AssertionKind.to_structure k = Except.error EncodeError.unsupported
| untyped.AssertionKind.Expr e => by
    intro h
    simp [untyped.AssertionKind.hasForAll] at h
| untyped.AssertionKind.And assertions => by
    intro h
    simp [untyped.AssertionKind.hasForAll] at h
    simp [untyped.AssertionKind.to_structure,
      untyped.to_structure_list_hasForAll assertions h, Functor.map, Except.map]
| untyped.AssertionKind.Implies lhs rhs => by
    intro h
    simp [untyped.AssertionKind.hasForAll] at h
    rcases h with h | h
    · simp [untyped.AssertionKind.to_structure,
        untyped.assertion_to_structure_hasForAll lhs h, Bind.bind, Except.bind]
    · by_cases hl : lhs.hasForAll = true
      · simp [untyped.AssertionKind.to_structure,
          untyped.assertion_to_structure_hasForAll lhs hl, Bind.bind, Except.bind]
      · have hqf : lhs.quantFree = true := by
          rw [untyped.assertion_quantFree_eq_not_hasForAll]
          simp [Bool.eq_false_iff.mpr] at hl ⊢
          simp [hl]
        obtain ⟨jl, hjl, _⟩ := untyped.assertion_to_structure_ok lhs hqf
        simp [untyped.AssertionKind.to_structure, hjl,
          untyped.assertion_to_structure_hasForAll rhs h, Bind.bind, Except.bind]
| untyped.AssertionKind.ForAll _ _ _ => by
    intro _
    simp [untyped.AssertionKind.to_structure]

/-- An assertion containing a quantifier fails to structure, with the
unsupported-construct error. -/
theorem untyped.assertion_to_structure_hasForAll :
    ∀ a : untyped.Assertion, a.hasForAll = true →
    untyped.Assertion.to_structure a = Except.error EncodeError.unsupported
| untyped.Assertion.mk k => by
    intro h
    simp [untyped.Assertion.hasForAll] at h
    simp [untyped.Assertion.to_structure,
      untyped.kind_to_structure_hasForAll k h, Functor.map, Except.map]

/-- A list with a quantifier somewhere fails to structure, with the
unsupported-construct error. -/
theorem untyped.to_structure_list_hasForAll :
    ∀ xs : List untyped.Assertion, untyped.hasForAllList xs = true →
    untyped.to_structure_list xs = Except.error EncodeError.unsupported
| [] => by
    intro h
    simp [untyped.hasForAllList] at h
| untyped.Assertion.mk k :: rest => by
    intro h
    simp [untyped.hasForAllList, untyped.Assertion.hasForAll] at h
    rcases h with h | h
    · simp [untyped.to_structure_list,
        untyped.kind_to_structure_hasForAll k h, Bind.bind, Except.bind]
    · by_cases hk : k.hasForAll = true
      · simp [untyped.to_structure_list,
          untyped.kind_to_structure_hasForAll k hk, Bind.bind, Except.bind]
      · have hqf : k.quantFree = true := by
          rw [untyped.kind_quantFree_eq_not_hasForAll]
          simp at hk
          simp [hk]
        obtain ⟨jk, hjk, _⟩ := untyped.kind_to_structure_ok k hqf
        simp [untyped.to_structure_list, hjk,
          untyped.to_structure_list_hasForAll rest h, Bind.bind, Except.bind]

end

/-- A quantifier-free untyped assertion:
`(s1#3 ∧ (s1#4 ==> s1#5))`. -/
def exWireTree : untyped.Assertion :=
  untyped.Assertion.mk (untyped.AssertionKind.And
    [untyped.Assertion.mk (untyped.AssertionKind.Expr (untyped.Expression.mk "s1" 3)),
     untyped.Assertion.mk (untyped.AssertionKind.Implies
       (untyped.Assertion.mk (untyped.AssertionKind.Expr (untyped.Expression.mk "s1" 4)))
       (untyped.Assertion.mk (untyped.AssertionKind.Expr (untyped.Expression.mk "s1" 5))))])

/-- An untyped assertion with a quantifier node nested in a conjunction. -/
def exWireForAllTree : untyped.Assertion :=
  untyped.Assertion.mk (untyped.AssertionKind.And
    [untyped.Assertion.mk (untyped.AssertionKind.ForAll () ()
      (untyped.Assertion.mk (untyped.AssertionKind.Expr (untyped.Expression.mk "s2" 0))))])

/-- C2. Wire round trip: every assertion tree built only from Leaf,
Conjunction and Implication serializes to a wire document whose decoding
reconstructs a tree identical in shape and in every leaf's
(spec_id, expr_id) pair; every tree containing a Quantifier node anywhere
fails to serialize with the unsupported-construct error. -/
theorem C2_wire_round_trip :
    (∀ t : untyped.Assertion, t.quantFree = true →
      ∃ a : json.Assertion,
        to_json_string t = Except.ok a.toJson ∧
        json.Assertion.from_json_string (some a.toJson) = Except.ok a ∧
        untyped.Assertion.matchesSkeleton t a = true) ∧
    (∀ t : untyped.Assertion, t.hasForAll = true →
      to_json_string t = Except.error EncodeError.unsupported) := by
  constructor
  · intro t h
    obtain ⟨ja, hja, hm⟩ := untyped.assertion_to_structure_ok t h
    refine ⟨ja, ?_, ?_, hm⟩
    · simp [to_json_string, hja, Functor.map, Except.map]
    · simp [json.Assertion.from_json_string, json.assertion_fromJson_toJson ja]
  · intro t h
    simp [to_json_string, untyped.assertion_to_structure_hasForAll t h, Functor.map,
      Except.map]

/-- C2 witness: the round trip at a concrete quantifier-free tree, and the
serialization failure at a concrete tree holding a quantifier. -/
theorem C2_wire_round_trip_witness :
    (∃ a : json.Assertion,
       to_json_string exWireTree = Except.ok a.toJson ∧
       json.Assertion.from_json_string (some a.toJson) = Except.ok a ∧
       untyped.Assertion.matchesSkeleton exWireTree a = true) ∧
    to_json_string exWireForAllTree = Except.error EncodeError.unsupported := by
  constructor
  · apply C2_wire_round_trip.1
    simp [exWireTree, untyped.Assertion.quantFree, untyped.AssertionKind.quantFree,
      untyped.quantFreeList]
  · apply C2_wire_round_trip.2
    simp [exWireForAllTree, untyped.Assertion.hasForAll, untyped.AssertionKind.hasForAll,
      untyped.hasForAllList]

/-- C8. Malformed wire input: a syntactically invalid string (the external
parser yields no document) or a structurally malformed document makes
decoding fail fatally with the serialization error; no default, empty or
partial Assertion is ever produced — any successfully decoded assertion
comes from a fully decoded document. -/
theorem C8_malformed_decode_is_fatal :
    (∀ s : Option Json,
       (s = none ∨ ∃ j, s = some j ∧ json.Assertion.fromJson j = none) →
       json.Assertion.from_json_string s = Except.error EncodeError.serializationError) ∧
    (∀ (s : Option Json) (a : json.Assertion),
       json.Assertion.from_json_string s = Except.ok a →
       ∃ j, s = some j ∧ json.Assertion.fromJson j = some a) := by
  constructor
  · intro s hs
    rcases hs with rfl | ⟨j, rfl, hj⟩
    · rfl
    · simp [json.Assertion.from_json_string, hj]
  · intro s a h
    cases s with
    | none => simp [json.Assertion.from_json_string] at h
    | some j =>
        refine ⟨j, rfl, ?_⟩
        cases hj : json.Assertion.fromJson j with
        | none => simp [json.Assertion.from_json_string, hj] at h
        | some a2 =>
            simp [json.Assertion.from_json_string, hj] at h
            rw [h]

/-- C8 witness: decoding fails fatally on the parse failure of an invalid
string and on the structurally malformed document `"garbage"`. -/
theorem C8_malformed_decode_is_fatal_witness :
    json.Assertion.from_json_string none =
      Except.error EncodeError.serializationError ∧
    json.Assertion.from_json_string (some (Json.str "garbage")) =
      Except.error EncodeError.serializationError :=
  ⟨C8_malformed_decode_is_fatal.1 none (Or.inl rfl),
   C8_malformed_decode_is_fatal.1 (some (Json.str "garbage"))
     (Or.inr ⟨Json.str "garbage", rfl, by simp [json.Assertion.fromJson]⟩)⟩
